import Mathlib

/-!
# Offboard mission controller (`offboard_lib.cpp`)

A shallow embedding of `OffboardControl` from `src/offboard/src/offboard_lib.cpp`.

Modelling conventions.

* A C++ `double` is modelled by an element of a linearly ordered field `K`
  with exact arithmetic; rounding, infinities and NaN are not modelled.  The
  definitions are polymorphic in `K` and computable (they run on `ℚ`); the
  theorems that need genuine square roots or angles are stated at `K = ℝ`.
* Functions of the C math library are parameters of the definitions that call
  them: `sqrt`, `sin`, `cos`, `atan2`.  At `K = ℝ` they are instantiated by
  `Real.sqrt`, `Real.sin`, `Real.cos` and
  `fun y x => Complex.arg ⟨x, y⟩` (the two-argument arctangent, with value `0`
  at the origin).  `abs` is the absolute value of a `double`.
* Names declared in `offboard/offboard.h` (which is not part of the sources at
  hand) are parameters as well: `PI`, `a`, `e_sq`, `radianOf`, `degreeOf`.
* A blocking loop of the program is a recursive function over the list of the
  telemetry snapshots that successive `ros::spinOnce()` calls deliver; a
  service call consumes one element of a list of replies.
-/

namespace Offboard

/-! ## Messages -/

/-- The message `geometry_msgs::Point`. -/
@[ext]
structure Point (K : Type) where
  x : K
  y : K
  z : K
deriving DecidableEq, Repr

/-- The message `geometry_msgs::Vector3`. -/
@[ext]
structure Vector3 (K : Type) where
  x : K
  y : K
  z : K
deriving DecidableEq, Repr

/-- The message `geometry_msgs::Quaternion`. -/
@[ext]
structure Quaternion (K : Type) where
  x : K
  y : K
  z : K
  w : K
deriving DecidableEq, Repr

/-- The message `geometry_msgs::Pose`. -/
@[ext]
structure Pose (K : Type) where
  position : Point K
  orientation : Quaternion K
deriving DecidableEq, Repr

/-- The message `geometry_msgs::PoseStamped`; the header (a time stamp) is not modelled. -/
@[ext]
structure PoseStamped (K : Type) where
  pose : Pose K
deriving DecidableEq, Repr

/-- The message `sensor_msgs::NavSatFix`, reduced to the fields the program reads. -/
@[ext]
structure NavSatFix (K : Type) where
  latitude : K
  longitude : K
  altitude : K
deriving DecidableEq, Repr

/-- The message `mavros_msgs::State`, reduced to the fields the program reads. -/
structure State where
  connected : Bool
  armed : Bool
  mode : String
  system_status : Nat
deriving DecidableEq, Repr

/-- An `Eigen::Vector3d`. -/
structure Vector3d (K : Type) where
  x : K
  y : K
  z : K
deriving DecidableEq, Repr

section Geometry

variable {K : Type} [LinearOrderedField K]

/-- A value-initialised `geometry_msgs::Quaternion`: all four fields are zero. -/
def Quaternion.zero : Quaternion K := ⟨0, 0, 0, 0⟩

/-- Modelled from the spec: `sqr` is declared in `offboard/offboard.h`, which is
not among the sources; the spec's Euclidean norm fixes it as the square. -/
def sqr (x : K) : K := x * x

/-- The method `Eigen::Vector3d::norm`: the square root of the squared norm. -/
def Vector3d.norm (sqrt : K → K) (v : Vector3d K) : K :=
  sqrt (v.x * v.x + v.y * v.y + v.z * v.z)

/-- The overload `targetTransfer(x, y, z)`: the orientation is left value-initialised. -/
def targetTransfer (x y z : K) : PoseStamped K :=
  ⟨⟨⟨x, y, z⟩, Quaternion.zero⟩⟩

/-- The overload `targetTransfer(x, y, z, geometry_msgs::Quaternion yaw)`. -/
def targetTransferQuat (x y z : K) (yaw : Quaternion K) : PoseStamped K :=
  ⟨⟨⟨x, y, z⟩, yaw⟩⟩

/-- The function `tf::createQuaternionMsgFromYaw`: a rotation by `yaw` about the z axis. -/
def createQuaternionMsgFromYaw (sin cos : K → K) (yaw : K) : Quaternion K :=
  ⟨0, 0, sin (yaw / 2), cos (yaw / 2)⟩

/-- The overload `targetTransfer(x, y, z, double yaw)`, `yaw` in degrees. -/
def targetTransferYaw (sin cos : K → K) (radianOf : K → K) (x y z yaw : K) : PoseStamped K :=
  ⟨⟨⟨x, y, z⟩, createQuaternionMsgFromYaw sin cos (radianOf yaw)⟩⟩

/-- The method `OffboardControl::distanceBetween`. -/
def distanceBetween (sqrt : K → K) (current target : PoseStamped K) : K :=
  let distance : Vector3d K :=
    ⟨target.pose.position.x - current.pose.position.x,
     target.pose.position.y - current.pose.position.y,
     target.pose.position.z - current.pose.position.z⟩
  distance.norm sqrt

/-- The method `OffboardControl::checkPositionError`; the member `current_odom_` it reads
is the argument `current_odom_` (its position only). -/
def checkPositionError (sqrt : K → K) (current_odom_ : Point K) (error : K)
    (target : PoseStamped K) : Bool :=
  let geo_error : Vector3d K :=
    ⟨target.pose.position.x - current_odom_.x,
     target.pose.position.y - current_odom_.y,
     target.pose.position.z - current_odom_.z⟩
  if geo_error.norm sqrt < error then true else false

/-- The method `OffboardControl::velComponentsCalc`. -/
def velComponentsCalc (sqrt : K → K) (v_desired : K) (current target : PoseStamped K) :
    Vector3 K :=
  let xc := current.pose.position.x
  let yc := current.pose.position.y
  let zc := current.pose.position.z
  let xt := target.pose.position.x
  let yt := target.pose.position.y
  let zt := target.pose.position.z
  let dx := xt - xc
  let dy := yt - yc
  let dz := zt - zc
  let d := sqrt (sqr dx + sqr dy + sqr dz)
  ⟨(dx / d) * v_desired, (dy / d) * v_desired, (dz / d) * v_desired⟩

/-- The method `OffboardControl::calculateYawOffset`, branch by branch. -/
def calculateYawOffset (atan2 : K → K → K) (PI : K) (current setpoint : PoseStamped K) : K :=
  let xc := current.pose.position.x
  let yc := current.pose.position.y
  let xs := setpoint.pose.position.x
  let ys := setpoint.pose.position.y
  let alpha := atan2 |ys - yc| |xs - xc|
  if xs > xc ∧ ys > yc then alpha
  else if xs < xc ∧ ys > yc then PI - alpha
  else if xs < xc ∧ ys < yc then alpha - PI
  else if xs > xc ∧ ys < yc then -alpha
  else if xs = xc ∧ ys > yc then alpha
  else if xs = xc ∧ ys < yc then -alpha
  else if xs > xc ∧ ys = yc then alpha
  else if xs < xc ∧ ys = yc then PI - alpha
  else alpha

/-- The bearing as the spec's design notes propose it: the two-argument arctangent of the
signed differences. -/
def yawTargetAtan2 (atan2 : K → K → K) (current setpoint : PoseStamped K) : K :=
  atan2 (setpoint.pose.position.y - current.pose.position.y)
    (setpoint.pose.position.x - current.pose.position.x)

end Geometry

/-! ## Geodetic transform -/

section Geodetic

variable {K : Type} [LinearOrderedField K]

/-- The method `OffboardControl::WGS84ToECEF`. -/
def WGS84ToECEF (sqrt sin cos radianOf : K → K) (a e_sq : K) (wgs84 : NavSatFix K) : Point K :=
  let lambda := radianOf wgs84.latitude
  let phi := radianOf wgs84.longitude
  let s := sin lambda
  let N := a / sqrt (1 - e_sq * s * s)
  let sin_lambda := sin lambda
  let cos_lambda := cos lambda
  let cos_phi := cos phi
  let sin_phi := sin phi
  ⟨(wgs84.altitude + N) * cos_lambda * cos_phi,
   (wgs84.altitude + N) * cos_lambda * sin_phi,
   (wgs84.altitude + (1 - e_sq) * N) * sin_lambda⟩

/-- The method `OffboardControl::ECEFToENU`. -/
def ECEFToENU (sqrt sin cos radianOf : K → K) (a e_sq : K) (ecef : Point K)
    (ref : NavSatFix K) : Point K :=
  let lambda := radianOf ref.latitude
  let phi := radianOf ref.longitude
  let s := sin lambda
  let N := a / sqrt (1 - e_sq * s * s)
  let sin_lambda := sin lambda
  let cos_lambda := cos lambda
  let cos_phi := cos phi
  let sin_phi := sin phi
  let x0 := (ref.altitude + N) * cos_lambda * cos_phi
  let y0 := (ref.altitude + N) * cos_lambda * sin_phi
  let z0 := (ref.altitude + (1 - e_sq) * N) * sin_lambda
  let xd := ecef.x - x0
  let yd := ecef.y - y0
  let zd := ecef.z - z0
  ⟨-sin_phi * xd + cos_phi * yd,
   -cos_phi * sin_lambda * xd - sin_lambda * sin_phi * yd + cos_lambda * zd,
   cos_lambda * cos_phi * xd + cos_lambda * sin_phi * yd + sin_lambda * zd⟩

/-- The method `OffboardControl::WGS84ToENU`. -/
def WGS84ToENU (sqrt sin cos radianOf : K → K) (a e_sq : K) (wgs84 ref : NavSatFix K) :
    Point K :=
  let ecef := WGS84ToECEF sqrt sin cos radianOf a e_sq wgs84
  let enu := ECEFToENU sqrt sin cos radianOf a e_sq ecef ref
  enu

end Geodetic

/-! ## Shared state and observable actions -/

/-- The members the subscriber callbacks overwrite, as the control loop sees them after one
`ros::spinOnce()`, together with the value `ros::ok()` has at that moment. -/
structure Snapshot (K : Type) where
  ok : Bool
  current_state_ : State
  current_odom_ : Point K
  yaw_ : K
  current_gps_position_ : NavSatFix K

/-- What a phase does to the outside world. -/
inductive Event (K : Type) where
  /-- The call `setpoint_pose_pub_.publish`. -/
  | publish (target : PoseStamped K)
  /-- The call `odom_error_pub_.publish`. -/
  | publishOdom (position : Point K)
  /-- The call `arming_client_.call` with request value `true`; `success` is true when the
  call succeeded and the response has `success` set. -/
  | arm (success : Bool)
  /-- The call `set_mode_client_.call`; `mode_sent` is true when the call succeeded and the
  response has `mode_sent` set. -/
  | setMode (custom_mode : String) (mode_sent : Bool)
  /-- The call `ros::shutdown`, preceded by the operation time print. -/
  | shutdown

/-- The parameters the constructor loads. -/
structure Params (K : Type) where
  simulation_mode_enable_ : Bool
  delivery_mode_enable_ : Bool
  return_home_mode_enable_ : Bool
  odom_error_ : Bool
  num_of_enu_target_ : Int
  x_target_ : List K
  y_target_ : List K
  z_target_ : List K
  target_error_ : K
  land_error_ : K
  z_takeoff_ : K
  z_delivery_ : K
  vel_desired_ : K
  land_vel_ : K
  return_vel_ : K
  yaw_rate_ : K

/-! ## Waiting for ARM and OFFBOARD -/

section Arm

variable {K : Type}

/-- The condition of both `while` loops of `waitForArmAndOffboard`. -/
def armLoopCond (s : Snapshot K) : Bool :=
  s.ok && !s.current_state_.armed && (s.current_state_.mode != "OFFBOARD")

/-- The loop of the branch `simulation_mode_enable_` of `waitForArmAndOffboard`: every
iteration requests arming and the OFFBOARD mode (the replies only select log lines), then
spins.  The result is the events and the snapshot in which the loop exits; `none` when the
inputs end while the loop is still waiting. -/
def selfArmLoop (cur : Snapshot K) :
    List (Snapshot K) → List Bool → List Bool → Option (List (Event K) × Snapshot K)
  | s :: rest, a :: armReplies, m :: modeReplies =>
    if armLoopCond cur then
      (selfArmLoop s rest armReplies modeReplies).map
        fun r => (Event.arm a :: Event.setMode "OFFBOARD" m :: r.1, r.2)
    else some ([], cur)
  | _, _, _ => if armLoopCond cur then none else some ([], cur)

/-- The loop of the other branch of `waitForArmAndOffboard`: it only spins. -/
def externalArmLoop (cur : Snapshot K) : List (Snapshot K) → Option (List (Event K) × Snapshot K)
  | [] => if armLoopCond cur then none else some ([], cur)
  | s :: rest => if armLoopCond cur then externalArmLoop s rest else some ([], cur)

/-- The method `OffboardControl::waitForArmAndOffboard`. -/
def waitForArmAndOffboard (simulation_mode_enable_ odom_error_ : Bool) (cur : Snapshot K)
    (snaps : List (Snapshot K)) (armReplies modeReplies : List Bool) :
    Option (List (Event K) × Snapshot K) :=
  if simulation_mode_enable_ then
    (selfArmLoop cur snaps armReplies modeReplies).map fun r =>
      (if odom_error_ then r.1 ++ [Event.publishOdom r.2.current_odom_] else r.1, r.2)
  else
    (externalArmLoop cur snaps).map fun r =>
      (if odom_error_ then r.1 ++ [Event.publishOdom r.2.current_odom_] else r.1, r.2)

end Arm

/-! ## Landing -/

section Landing

variable {K : Type} [LinearOrderedField K]

/-- The method `OffboardControl::landing`, from the loop test on; `land_reached` is the
local of that name (`false` on entry).  A failed request in the branch
`system_status == 3` leads back to the loop test without a spin.  The result is `none`
when the inputs end while the loop is still running. -/
def landing (sqrt : K → K) (vel_desired_ land_error_ : K) (setpoint : PoseStamped K)
    (land_reached : Bool) (cur : Snapshot K) (snaps : List (Snapshot K))
    (replies : List Bool) : Option (List (Event K)) :=
  if cur.ok && !land_reached then
    let components_vel_ := velComponentsCalc sqrt vel_desired_
      (targetTransfer cur.current_odom_.x cur.current_odom_.y cur.current_odom_.z) setpoint
    let target_enu_pose_ := targetTransfer (cur.current_odom_.x + components_vel_.x)
      (cur.current_odom_.y + components_vel_.y) (cur.current_odom_.z + components_vel_.z)
    let land_reached := checkPositionError sqrt cur.current_odom_ land_error_ setpoint
    if cur.current_state_.system_status = 3 then
      match replies with
      | [] => none
      | r :: replies =>
        if r then
          some [Event.publish target_enu_pose_, Event.setMode "AUTO.LAND" r, Event.shutdown]
        else
          (landing sqrt vel_desired_ land_error_ setpoint land_reached cur snaps replies).map
            fun evs => Event.publish target_enu_pose_ :: Event.setMode "AUTO.LAND" r :: evs
    else if land_reached then
      match replies with
      | [] => none
      | r :: replies =>
        (landing sqrt vel_desired_ land_error_ setpoint land_reached cur snaps replies).map
          fun evs => Event.publish target_enu_pose_ :: Event.setMode "AUTO.LAND" r :: evs
    else
      match snaps with
      | [] => none
      | s :: snaps =>
        (landing sqrt vel_desired_ land_error_ setpoint land_reached s snaps replies).map
          fun evs => Event.publish target_enu_pose_ :: evs
  else some [Event.shutdown]
termination_by snaps.length + replies.length

/-- The method `OffboardControl::landingYaw`, from the loop test on: as `landing`, but the
published pose carries the orientation of `setpoint`. -/
def landingYaw (sqrt : K → K) (vel_desired_ land_error_ : K) (setpoint : PoseStamped K)
    (land_reached : Bool) (cur : Snapshot K) (snaps : List (Snapshot K))
    (replies : List Bool) : Option (List (Event K)) :=
  if cur.ok && !land_reached then
    let components_vel_ := velComponentsCalc sqrt vel_desired_
      (targetTransfer cur.current_odom_.x cur.current_odom_.y cur.current_odom_.z) setpoint
    let target_enu_pose_ := targetTransferQuat (cur.current_odom_.x + components_vel_.x)
      (cur.current_odom_.y + components_vel_.y) (cur.current_odom_.z + components_vel_.z)
      setpoint.pose.orientation
    let land_reached := checkPositionError sqrt cur.current_odom_ land_error_ setpoint
    if cur.current_state_.system_status = 3 then
      match replies with
      | [] => none
      | r :: replies =>
        if r then
          some [Event.publish target_enu_pose_, Event.setMode "AUTO.LAND" r, Event.shutdown]
        else
          (landingYaw sqrt vel_desired_ land_error_ setpoint land_reached cur snaps replies).map
            fun evs => Event.publish target_enu_pose_ :: Event.setMode "AUTO.LAND" r :: evs
    else if land_reached then
      match replies with
      | [] => none
      | r :: replies =>
        (landingYaw sqrt vel_desired_ land_error_ setpoint land_reached cur snaps replies).map
          fun evs => Event.publish target_enu_pose_ :: Event.setMode "AUTO.LAND" r :: evs
    else
      match snaps with
      | [] => none
      | s :: snaps =>
        (landingYaw sqrt vel_desired_ land_error_ setpoint land_reached s snaps replies).map
          fun evs => Event.publish target_enu_pose_ :: evs
  else some [Event.shutdown]
termination_by snaps.length + replies.length

end Landing

/-! ## Enroute -/

section Enroute

variable {K : Type} [LinearOrderedField K]

/-- The operator `std::vector<double>::operator[]` at an `int` index: `none` outside the
vector, where the C++ read is undefined. -/
def vectorAt (v : List K) (i : Int) : Option K :=
  if 0 ≤ i then v.get? i.toNat else none

/-- The yaw normalisation of `enuYawFlightAndLandingSetpoint` (the test "to know what
direction drone need to spin"): the new value of `target_alpha`. -/
def normalizeTargetAlpha (PI yaw_ target_alpha : K) : K :=
  if yaw_ - target_alpha ≥ PI then target_alpha + 2 * PI
  else if yaw_ - target_alpha ≤ -PI then target_alpha - 2 * PI
  else target_alpha

/-- The rate limit of `enuYawFlightAndLandingSetpoint`: the value of `this_loop_alpha`. -/
def thisLoopAlpha (yaw_rate_ yaw_ target_alpha : K) : K :=
  if target_alpha ≤ yaw_ then
    if yaw_ - target_alpha > yaw_rate_ then yaw_ - yaw_rate_ else target_alpha
  else
    if target_alpha - yaw_ > yaw_rate_ then yaw_ + yaw_rate_ else target_alpha

/-- The values of one iteration of the loop of `enuYawFlightAndLandingSetpoint`. -/
structure EnrouteTick (K : Type) where
  /-- The index `i` at the start of the iteration. -/
  i : Int
  final_position_reached_ : Bool
  setpoint : PoseStamped K
  /-- The odometry position the iteration reads. -/
  current_odom_ : Point K
  /-- The yaw the iteration reads. -/
  yaw_ : K
  components_vel_ : Vector3 K
  /-- The value of `target_alpha` after the normalisation. -/
  target_alpha : K
  this_loop_alpha : K
  /-- The pose the iteration publishes. -/
  target_enu_pose_ : PoseStamped K
  /-- The hold position `current_hold_x/y/z` at the end of the iteration. -/
  current_hold : Point K
  target_reached : Bool
  /-- The index `i` at the end of the iteration. -/
  next_i : Int

/-- The test of the rotate-first rule of `enuYawFlightAndLandingSetpoint` on the values of
an iteration: the yaw error is below `0.2` rad. -/
def EnrouteTick.yawErrorSmall (t : EnrouteTick K) : Prop :=
  |t.yaw_ - t.target_alpha| < 0.2

instance EnrouteTick.decidableYawErrorSmall (t : EnrouteTick K) : Decidable t.yawErrorSmall :=
  inferInstanceAs (Decidable (|t.yaw_ - t.target_alpha| < 0.2))

/-- The waypoint selection at the head of the loop of `enuYawFlightAndLandingSetpoint`: the
new value of `final_position_reached_` and the setpoint.  The result is `none` when a
waypoint read is outside its vector. -/
def enrouteSetpoint (p : Params K) (i : Int) : Option (Bool × PoseStamped K) :=
  if i < p.num_of_enu_target_ - 1 then
    (vectorAt p.x_target_ i).bind fun x =>
    (vectorAt p.y_target_ i).bind fun y =>
    (vectorAt p.z_target_ i).bind fun z =>
    some (false, targetTransfer x y z)
  else
    (vectorAt p.x_target_ (p.num_of_enu_target_ - 1)).bind fun x =>
    (vectorAt p.y_target_ (p.num_of_enu_target_ - 1)).bind fun y =>
    (vectorAt p.z_target_ (p.num_of_enu_target_ - 1)).bind fun z =>
    some (true, targetTransfer x y z)

/-- The index update of the loop of `enuYawFlightAndLandingSetpoint`: at a reached waypoint
that is not the final one, waypoint `i + 1` is read (for the print) and `i` is incremented.
The result is `none` when that read is outside its vector. -/
def enrouteNextIndex (p : Params K) (i : Int) (target_reached final_position_reached_ : Bool) :
    Option Int :=
  if target_reached && !final_position_reached_ then
    (vectorAt p.x_target_ (i + 1)).bind fun _ =>
    (vectorAt p.y_target_ (i + 1)).bind fun _ =>
    (vectorAt p.z_target_ (i + 1)).bind fun _ =>
    some (i + 1)
  else some i

/-- One iteration of the loop of `enuYawFlightAndLandingSetpoint`, up to the hand-over to
`delivery`, `hovering`, `landingYaw`, `returnHome` and `landing`, none of which touches `i`
or the hold position.  The result is `none` when a waypoint read is outside its vector. -/
def enrouteTick (sqrt : K → K) (atan2 : K → K → K) (sin cos : K → K) (PI : K) (p : Params K)
    (i : Int) (current_hold : Point K) (cur : Snapshot K) : Option (EnrouteTick K) :=
  (enrouteSetpoint p i).bind fun sel =>
  let final_position_reached_ := sel.1
  let setpoint := sel.2
  let here := targetTransfer cur.current_odom_.x cur.current_odom_.y cur.current_odom_.z
  let components_vel_ :=
    if distanceBetween sqrt here setpoint < 3 then velComponentsCalc sqrt 0.3 here setpoint
    else velComponentsCalc sqrt p.vel_desired_ here setpoint
  let target_alpha := calculateYawOffset atan2 PI here setpoint
  let target_alpha := normalizeTargetAlpha PI cur.yaw_ target_alpha
  let this_loop_alpha := thisLoopAlpha p.yaw_rate_ cur.yaw_ target_alpha
  let out : PoseStamped K × Point K :=
    if |cur.yaw_ - target_alpha| < 0.2 then
      (⟨⟨⟨cur.current_odom_.x + components_vel_.x, cur.current_odom_.y + components_vel_.y,
          cur.current_odom_.z + components_vel_.z⟩,
          createQuaternionMsgFromYaw sin cos this_loop_alpha⟩⟩,
       ⟨cur.current_odom_.x, cur.current_odom_.y, cur.current_odom_.z⟩)
    else
      (⟨⟨⟨current_hold.x, current_hold.y, current_hold.z⟩,
          createQuaternionMsgFromYaw sin cos this_loop_alpha⟩⟩,
       current_hold)
  let target_reached := checkPositionError sqrt cur.current_odom_ p.target_error_ setpoint
  (enrouteNextIndex p i target_reached final_position_reached_).bind fun next_i =>
  some
    { i := i
      final_position_reached_ := final_position_reached_
      setpoint := setpoint
      current_odom_ := cur.current_odom_
      yaw_ := cur.yaw_
      components_vel_ := components_vel_
      target_alpha := target_alpha
      this_loop_alpha := this_loop_alpha
      target_enu_pose_ := out.1
      current_hold := out.2
      target_reached := target_reached
      next_i := next_i }

/-- The loop of `enuYawFlightAndLandingSetpoint` on the snapshot `cur` followed by the
snapshots `rest`, one per iteration: the iterations it runs on them, in order.  The loop
ends when `ros::ok()` is false, which is the case after the final waypoint is reached
(`landing` and `landingYaw` shut the node down).  The result is `none` when a waypoint read
is outside its vector. -/
def enrouteLoop (sqrt : K → K) (atan2 : K → K → K) (sin cos : K → K) (PI : K) (p : Params K)
    (i : Int) (current_hold : Point K) (cur : Snapshot K) :
    List (Snapshot K) → Option (List (EnrouteTick K))
  | [] =>
    if cur.ok then
      (enrouteTick sqrt atan2 sin cos PI p i current_hold cur).map fun t => [t]
    else some []
  | s :: rest =>
    if cur.ok then
      match enrouteTick sqrt atan2 sin cos PI p i current_hold cur with
      | none => none
      | some t =>
        if t.target_reached && t.final_position_reached_ then some [t]
        else
          (enrouteLoop sqrt atan2 sin cos PI p t.next_i t.current_hold s rest).map
            fun ts => t :: ts
    else some []

/-- The method `OffboardControl::enuYawFlightAndLandingSetpoint`, entered with the snapshot
`cur`: the first print reads waypoint `0`, the hold position starts as the odometry position
of `cur`, and the first iteration reads `cur` again (nothing spins in between). -/
def enuYawFlightAndLandingSetpoint (sqrt : K → K) (atan2 : K → K → K) (sin cos : K → K)
    (PI : K) (p : Params K) (cur : Snapshot K) (snaps : List (Snapshot K)) :
    Option (List (EnrouteTick K)) :=
  (vectorAt p.x_target_ 0).bind fun _ =>
  (vectorAt p.y_target_ 0).bind fun _ =>
  (vectorAt p.z_target_ 0).bind fun _ =>
  let current_hold : Point K :=
    ⟨cur.current_odom_.x, cur.current_odom_.y, cur.current_odom_.z⟩
  enrouteLoop sqrt atan2 sin cos PI p 0 current_hold cur snaps

/-- The rotate-in-place clause of the hold rule, read literally on the iterations `L` of a
run: an iteration whose yaw error is not small publishes the odometry position of the latest
earlier iteration whose yaw error was small. -/
def PublishesLastSmallErrorPosition (L : List (EnrouteTick K)) : Prop :=
  ∀ (n : ℕ) (t : EnrouteTick K), L[n]? = some t → ¬ t.yawErrorSmall →
    ∃ (m : ℕ) (tm : EnrouteTick K), m < n ∧ L[m]? = some tm ∧ tm.yawErrorSmall ∧
      (∀ (k : ℕ) (tk : EnrouteTick K), m < k → k < n → L[k]? = some tk →
        ¬ tk.yawErrorSmall) ∧
      t.target_enu_pose_.pose.position = tm.current_odom_

/-- The index rule read literally on a run of `enuYawFlightAndLandingSetpoint`: every
waypoint read is inside its vector (the run is defined), the index starts at `0`, each
iteration keeps it or adds one, and it stays between `0` and `count - 1`. -/
def IndexStaysInList (sqrt : K → K) (atan2 : K → K → K) (sin cos : K → K) (PI : K)
    (p : Params K) (cur : Snapshot K) (snaps : List (Snapshot K)) : Prop :=
  ∃ L, enuYawFlightAndLandingSetpoint sqrt atan2 sin cos PI p cur snaps = some L ∧
    (∀ t, L[0]? = some t → t.i = 0) ∧
    (∀ (n : ℕ) (t : EnrouteTick K), L[n]? = some t →
      0 ≤ t.i ∧ t.i ≤ p.num_of_enu_target_ - 1 ∧
      (t.next_i = t.i ∨ t.next_i = t.i + 1) ∧ t.next_i ≤ p.num_of_enu_target_ - 1)

end Enroute

/-! ## Calibration -/

section Calibration

variable {K : Type} [LinearOrderedField K]

/-- The members `waitForStable` writes.  The arrays `x_off_`, `y_off_` and `z_off_`
(declared in `offboard/offboard.h`) are kept as one list of points, entry `i` holding
`(x_off_[i], y_off_[i], z_off_[i])`. -/
structure Stable (K : Type) where
  ref_gps_position_ : NavSatFix K
  off_ : List (Point K)
  x_offset_ : K
  y_offset_ : K
  z_offset_ : K
  home_enu_pose_ : PoseStamped K
  home_gps_position_ : NavSatFix K

/-- The first loop of `waitForStable` with `n` iterations to go: each iteration records one
offset sample from the snapshot `cur` and then spins.  The result is the samples in order,
the snapshot after the last spin and the snapshots left; `none` when the snapshots end
before the loop does. -/
def sampleLoop (sqrt sin cos radianOf : K → K) (a e_sq : K) (ref_gps_position_ : NavSatFix K) :
    Nat → Snapshot K → List (Snapshot K) → Option (List (Point K) × Snapshot K × List (Snapshot K))
  | 0, cur, snaps => some ([], cur, snaps)
  | _ + 1, _, [] => none
  | n + 1, cur, s :: rest =>
    let converted_enu :=
      WGS84ToENU sqrt sin cos radianOf a e_sq cur.current_gps_position_ ref_gps_position_
    let off : Point K :=
      ⟨cur.current_odom_.x - converted_enu.x, cur.current_odom_.y - converted_enu.y,
        cur.current_odom_.z - converted_enu.z⟩
    (sampleLoop sqrt sin cos radianOf a e_sq ref_gps_position_ n s rest).map
      fun r => (off :: r.1, r.2)

/-- The method `OffboardControl::waitForStable`, entered with the snapshot `cur` and the
frame offset `(x_offset_, y_offset_, z_offset_)`.  The result is the members it writes, the
snapshot it ends in and the snapshots left; `none` when fewer than `100` snapshots follow. -/
def waitForStable (sqrt sin cos radianOf : K → K) (a e_sq : K) (x_offset_ y_offset_ z_offset_ : K)
    (cur : Snapshot K) (snaps : List (Snapshot K)) :
    Option (Stable K × Snapshot K × List (Snapshot K)) :=
  let ref_gps_position_ := cur.current_gps_position_
  (sampleLoop sqrt sin cos radianOf a e_sq ref_gps_position_ 100 cur snaps).map fun r =>
    let off_ := r.1
    let last := r.2.1
    ({ ref_gps_position_ := ref_gps_position_
       off_ := off_
       x_offset_ := off_.foldl (fun acc o => acc + o.x / 100) x_offset_
       y_offset_ := off_.foldl (fun acc o => acc + o.y / 100) y_offset_
       z_offset_ := off_.foldl (fun acc o => acc + o.z / 100) z_offset_
       home_enu_pose_ := targetTransferYaw sin cos radianOf last.current_odom_.x
         last.current_odom_.y last.current_odom_.z last.yaw_
       home_gps_position_ := last.current_gps_position_ },
     last, r.2.2)

/-- The calibration rule read literally on a run of `waitForStable` over the snapshots
`ticks`: sample `n` is the odometry position of tick `n` minus the local coordinates of the
fix of tick `n` taken about that same fix. -/
def SamplesUseOwnReference (sqrt sin cos radianOf : K → K) (a e_sq : K)
    (ticks : List (Snapshot K)) (off_ : List (Point K)) : Prop :=
  ∀ (n : ℕ) (s : Snapshot K), n < 100 → ticks[n]? = some s →
    off_[n]? = some
      ⟨s.current_odom_.x - (WGS84ToENU sqrt sin cos radianOf a e_sq s.current_gps_position_
          s.current_gps_position_).x,
        s.current_odom_.y - (WGS84ToENU sqrt sin cos radianOf a e_sq s.current_gps_position_
          s.current_gps_position_).y,
        s.current_odom_.z - (WGS84ToENU sqrt sin cos radianOf a e_sq s.current_gps_position_
          s.current_gps_position_).z⟩

end Calibration

/-! ## Flight phases -/

section Phases

variable {K : Type} [LinearOrderedField K]

/-- One call of `velComponentsCalc`: its three arguments. -/
structure VelCall (K : Type) where
  v_desired : K
  current : PoseStamped K
  target : PoseStamped K

/-- What a phase leaves behind: the events in order, the calls of `velComponentsCalc` in
order, and the snapshot the phase ends in together with the snapshots left, or `none` when
the snapshots ended while the phase was still running. -/
structure Run (K : Type) where
  events : List (Event K)
  calls : List (VelCall K)
  next : Option (Snapshot K × List (Snapshot K))

/-- The run `r` preceded by the event `e`. -/
def Run.cons (e : Event K) (r : Run K) : Run K :=
  { r with events := e :: r.events }

/-- The run `r` preceded by the call `c` of `velComponentsCalc`. -/
def Run.call (c : VelCall K) (r : Run K) : Run K :=
  { r with calls := c :: r.calls }

/-- The method `OffboardControl::hovering`: the loop publishes the setpoint and spins while
the clock is within `hover_time` of its start; `ticks` is the number of iterations that
takes. -/
def hovering (setpoint : PoseStamped K) : Nat → Snapshot K → List (Snapshot K) → Run K
  | 0, cur, snaps => ⟨[], [], some (cur, snaps)⟩
  | _ + 1, _, [] => ⟨[Event.publish setpoint], [], none⟩
  | ticks + 1, _, s :: rest => (hovering setpoint ticks s rest).cons (Event.publish setpoint)

/-- The loop of `setOffboardStream` with the counter at `i`. -/
def setOffboardStreamLoop (first_target : PoseStamped K) :
    Nat → Snapshot K → List (Snapshot K) → Run K
  | 0, cur, snaps => ⟨[], [], some (cur, snaps)⟩
  | i + 1, cur, snaps =>
    if cur.ok then
      match snaps with
      | [] => ⟨[Event.publish first_target], [], none⟩
      | s :: rest =>
        (setOffboardStreamLoop first_target i s rest).cons (Event.publish first_target)
    else ⟨[], [], some (cur, snaps)⟩

/-- The method `OffboardControl::setOffboardStream`. -/
def setOffboardStream (first_target : PoseStamped K) (cur : Snapshot K)
    (snaps : List (Snapshot K)) : Run K :=
  setOffboardStreamLoop first_target 50 cur snaps

/-- The method `OffboardControl::takeOff`; `hoverTicks` is the number of iterations of the
hover that follows the climb. -/
def takeOff (sqrt : K → K) (vel_desired_ target_error_ : K) (setpoint : PoseStamped K)
    (hoverTicks : Nat) (cur : Snapshot K) (snaps : List (Snapshot K)) : Run K :=
  if cur.ok then
    let here := targetTransfer cur.current_odom_.x cur.current_odom_.y cur.current_odom_.z
    let components_vel_ := velComponentsCalc sqrt vel_desired_ here setpoint
    let target_enu_pose_ := targetTransfer (cur.current_odom_.x + components_vel_.x)
      (cur.current_odom_.y + components_vel_.y) (cur.current_odom_.z + components_vel_.z)
    let takeoff_reached := checkPositionError sqrt cur.current_odom_ target_error_ setpoint
    let rest : Run K :=
      if takeoff_reached then hovering setpoint hoverTicks cur snaps
      else
        match snaps with
        | [] => ⟨[], [], none⟩
        | s :: snaps => takeOff sqrt vel_desired_ target_error_ setpoint hoverTicks s snaps
    (rest.cons (Event.publish target_enu_pose_)).call ⟨vel_desired_, here, setpoint⟩
  else ⟨[], [], some (cur, snaps)⟩

/-- How `inputENUYawAndLandingSetpoint` ends. -/
inductive MissionEnd (K : Type) where
  /-- The snapshots ended in a phase before `enuYawFlightAndLandingSetpoint`. -/
  | starved
  /-- In `enuYawFlightAndLandingSetpoint` a waypoint read was outside its vector. -/
  | undefinedRead
  /-- The iterations `enuYawFlightAndLandingSetpoint` ran. -/
  | enroute (ticks : List (EnrouteTick K))

/-- What `inputENUYawAndLandingSetpoint` does: the calibration (when it completed), the events
up to the Enroute loop, and the end. -/
structure Mission (K : Type) where
  stable : Option (Stable K)
  events : List (Event K)
  outcome : MissionEnd K

/-- The method `OffboardControl::inputENUYawAndLandingSetpoint` from the call of
`waitForStable` on, with the waypoints already loaded in `p`.  The snapshots come in three
parts: `snaps` for the calibration and the setpoint stream, `armSnaps` for the wait for ARM
and OFFBOARD, `flightSnaps` from takeoff on; `hoverTicks` is the number of iterations of the
hover that ends the takeoff. -/
def inputENUYawAndLandingSetpoint (sqrt : K → K) (atan2 : K → K → K)
    (sin cos radianOf : K → K) (PI a e_sq : K) (p : Params K) (x_offset_ y_offset_ z_offset_ : K)
    (hoverTicks : Nat) (cur : Snapshot K) (snaps armSnaps flightSnaps : List (Snapshot K))
    (armReplies modeReplies : List Bool) : Mission K :=
  match waitForStable sqrt sin cos radianOf a e_sq x_offset_ y_offset_ z_offset_ cur snaps with
  | none => ⟨none, [], MissionEnd.starved⟩
  | some (stable, cur, snaps) =>
    let stream := setOffboardStream
      (targetTransfer cur.current_odom_.x cur.current_odom_.y p.z_takeoff_) cur snaps
    match stream.next with
    | none => ⟨some stable, stream.events, MissionEnd.starved⟩
    | some (cur, _) =>
      match waitForArmAndOffboard p.simulation_mode_enable_ p.odom_error_ cur armSnaps
          armReplies modeReplies with
      | none => ⟨some stable, stream.events, MissionEnd.starved⟩
      | some (armEvents, cur) =>
        let climb := takeOff sqrt p.vel_desired_ p.target_error_
          (targetTransfer cur.current_odom_.x cur.current_odom_.y p.z_takeoff_) hoverTicks cur
          flightSnaps
        match climb.next with
        | none => ⟨some stable, stream.events ++ armEvents ++ climb.events, MissionEnd.starved⟩
        | some (cur, flightSnaps) =>
          match enuYawFlightAndLandingSetpoint sqrt atan2 sin cos PI p cur flightSnaps with
          | none =>
            ⟨some stable, stream.events ++ armEvents ++ climb.events, MissionEnd.undefinedRead⟩
          | some ticks =>
            ⟨some stable, stream.events ++ armEvents ++ climb.events, MissionEnd.enroute ticks⟩

end Phases

/-! ## Sample inputs -/

section Samples

variable (K : Type) [LinearOrderedField K]

/-- A mission with the single waypoint `(0, 5, 5)`, tolerance `1/2`, cruise speed `1` and
yaw rate limit `1/10`. -/
def oneWaypoint : Params K :=
  { simulation_mode_enable_ := false
    delivery_mode_enable_ := false
    return_home_mode_enable_ := false
    odom_error_ := false
    num_of_enu_target_ := 1
    x_target_ := [0]
    y_target_ := [5]
    z_target_ := [5]
    target_error_ := 1 / 2
    land_error_ := 1
    z_takeoff_ := 5
    z_delivery_ := 1
    vel_desired_ := 1
    land_vel_ := 1 / 2
    return_vel_ := 1
    yaw_rate_ := 1 / 10 }

/-- A mission with the two waypoints `(10, 0, 5)` and `(10, 10, 5)`, tolerance `1/2`, cruise
speed `1` and yaw rate limit `1/10`, without delivery and without return home. -/
def twoWaypoints : Params K :=
  { simulation_mode_enable_ := false
    delivery_mode_enable_ := false
    return_home_mode_enable_ := false
    odom_error_ := false
    num_of_enu_target_ := 2
    x_target_ := [10, 10]
    y_target_ := [0, 10]
    z_target_ := [5, 5]
    target_error_ := 1 / 2
    land_error_ := 1
    z_takeoff_ := 5
    z_delivery_ := 1
    vel_desired_ := 1
    land_vel_ := 1 / 2
    return_vel_ := 1
    yaw_rate_ := 1 / 10 }

/-- A mission with an empty waypoint list and waypoint count `0`, otherwise as
`oneWaypoint`. -/
def noWaypoint : Params K :=
  { simulation_mode_enable_ := false
    delivery_mode_enable_ := false
    return_home_mode_enable_ := false
    odom_error_ := false
    num_of_enu_target_ := 0
    x_target_ := []
    y_target_ := []
    z_target_ := []
    target_error_ := 1 / 2
    land_error_ := 1
    z_takeoff_ := 5
    z_delivery_ := 1
    vel_desired_ := 1
    land_vel_ := 1 / 2
    return_vel_ := 1
    yaw_rate_ := 1 / 10 }

/-- A mission whose waypoint count is `3` while its coordinate vectors hold the two
waypoints `(10, 0, 5)` and `(10, 10, 5)`; otherwise as `twoWaypoints`. -/
def shortVectors : Params K :=
  { simulation_mode_enable_ := false
    delivery_mode_enable_ := false
    return_home_mode_enable_ := false
    odom_error_ := false
    num_of_enu_target_ := 3
    x_target_ := [10, 10]
    y_target_ := [0, 10]
    z_target_ := [5, 5]
    target_error_ := 1 / 2
    land_error_ := 1
    z_takeoff_ := 5
    z_delivery_ := 1
    vel_desired_ := 1
    land_vel_ := 1 / 2
    return_vel_ := 1
    yaw_rate_ := 1 / 10 }

variable {K}

/-- A snapshot of a running node: armed, in OFFBOARD mode, airborne (`system_status` 4), at
odometry position `(x, y, z)` with yaw `yaw`. -/
def flying (x y z yaw : K) : Snapshot K :=
  { ok := true
    current_state_ := ⟨true, true, "OFFBOARD", 4⟩
    current_odom_ := ⟨x, y, z⟩
    yaw_ := yaw
    current_gps_position_ := ⟨0, 0, 0⟩ }

/-- A snapshot of a running node on the ground at the origin (`system_status` 3, standby),
with the given arming flag and flight mode. -/
def standby (armed : Bool) (mode : String) : Snapshot K :=
  { ok := true
    current_state_ := ⟨true, armed, mode, 3⟩
    current_odom_ := ⟨0, 0, 0⟩
    yaw_ := 0
    current_gps_position_ := ⟨0, 0, 0⟩ }

/-- The snapshot `s` with the satellite fix replaced by `fix`. -/
def withFix (s : Snapshot K) (fix : NavSatFix K) : Snapshot K :=
  { s with current_gps_position_ := fix }

end Samples

/-! ## Properties -/

section LoopExits

/-- C1, the code at the failing inputs: entered in a state that is armed but in the mode
`"AUTO.LOITER"`, and equally in a state that is in the mode `"OFFBOARD"` but not armed, both
paths of `waitForArmAndOffboard` leave the wait loop at once, without a request, whatever
follows. -/
theorem waitForArmAndOffboard_exits_early (simulation_mode_enable_ : Bool)
    (snaps : List (Snapshot ℚ)) (armReplies modeReplies : List Bool) :
    waitForArmAndOffboard simulation_mode_enable_ false (standby true "AUTO.LOITER")
        snaps armReplies modeReplies = some ([], standby true "AUTO.LOITER") ∧
    waitForArmAndOffboard simulation_mode_enable_ false (standby false "OFFBOARD")
        snaps armReplies modeReplies = some ([], standby false "OFFBOARD") := by
  constructor <;> cases simulation_mode_enable_ <;> cases snaps <;> cases armReplies <;>
    cases modeReplies <;>
    simp [waitForArmAndOffboard, selfArmLoop, externalArmLoop, armLoopCond, standby]

set_option maxHeartbeats 1600000 in
open Real in
/-- C2, the code at the failing input: with the vehicle airborne within the landing tolerance
of the setpoint and the single AUTO.LAND request rejected, `landing` and `landingYaw` publish
once, make that one request, and shut the node down. -/
theorem landing_shutdown_after_rejection :
    landing Real.sqrt 1 1 (targetTransfer 0 0 0) false (flying 0 0 (1 / 2) 0) [] [false] =
      some [Event.publish (targetTransfer 0 0 (-(1 / 2))), Event.setMode "AUTO.LAND" false,
        Event.shutdown] ∧
    landingYaw Real.sqrt 1 1 (targetTransfer 0 0 0) false (flying 0 0 (1 / 2) 0) [] [false] =
      some [Event.publish (targetTransfer 0 0 (-(1 / 2))), Event.setMode "AUTO.LAND" false,
        Event.shutdown] := by
  have hs : √4 = 2 := by
    rw [show (4 : ℝ) = 2 * 2 by norm_num]
    exact Real.sqrt_mul_self (by norm_num)
  have hc : checkPositionError Real.sqrt (⟨0, 0, 1 / 2⟩ : Point ℝ) 1
      (targetTransfer 0 0 0) = true := by
    norm_num [checkPositionError, Vector3d.norm, targetTransfer, hs]
  have hv : velComponentsCalc Real.sqrt 1 (targetTransfer 0 0 (1 / 2)) (targetTransfer 0 0 0) =
      ⟨0, 0, -1⟩ := by
    norm_num [velComponentsCalc, sqr, targetTransfer, hs]
  constructor
  · rw [landing]
    norm_num [flying, hv, hc]
    rw [landing]
    simp
  · rw [landingYaw]
    norm_num [flying, hv, hc]
    rw [landingYaw]
    simp [targetTransfer, targetTransferQuat]

end LoopExits

section Properties

open Real

/-- C3: `checkPositionError` returns true exactly when the Euclidean distance between the
odometry position and the target, which is the value `distanceBetween` computes, is strictly
less than the tolerance; at distance equal to the tolerance it returns false. -/
theorem checkPositionError_iff_distance_lt (error : ℝ) (current_odom_ : Point ℝ)
    (target : PoseStamped ℝ) :
    distanceBetween Real.sqrt
        (targetTransfer current_odom_.x current_odom_.y current_odom_.z) target =
      √((target.pose.position.x - current_odom_.x) ^ 2 +
        (target.pose.position.y - current_odom_.y) ^ 2 +
        (target.pose.position.z - current_odom_.z) ^ 2) ∧
    (checkPositionError Real.sqrt current_odom_ error target = true ↔
      distanceBetween Real.sqrt
        (targetTransfer current_odom_.x current_odom_.y current_odom_.z) target < error) ∧
    (distanceBetween Real.sqrt
        (targetTransfer current_odom_.x current_odom_.y current_odom_.z) target = error →
      checkPositionError Real.sqrt current_odom_ error target = false) := by
  have hc : checkPositionError Real.sqrt current_odom_ error target =
      decide (distanceBetween Real.sqrt
        (targetTransfer current_odom_.x current_odom_.y current_odom_.z) target < error) := by
    simp [checkPositionError, distanceBetween, targetTransfer]
  refine ⟨?_, ?_, ?_⟩
  · simp [distanceBetween, Vector3d.norm, targetTransfer, pow_two]
  · rw [hc]; simp
  · intro h
    rw [hc, h]; simp

/-- Away from the target the distance that `velComponentsCalc` divides by is positive. -/
theorem sqrt_sqr_sum_pos {dx dy dz : ℝ} (h : ¬ (dx = 0 ∧ dy = 0 ∧ dz = 0)) :
    0 < √(sqr dx + sqr dy + sqr dz) := by
  apply Real.sqrt_pos.mpr
  unfold sqr
  by_contra hle
  apply h
  have hx := mul_self_nonneg dx
  have hy := mul_self_nonneg dy
  have hz := mul_self_nonneg dz
  refine ⟨?_, ?_, ?_⟩ <;> nlinarith

/-- C4: away from the target, `velComponentsCalc` returns the displacement from the current
position to the target, divided by its Euclidean length and multiplied by `v_desired`; the
result is a multiple of the displacement and its Euclidean norm is `|v_desired|`. -/
theorem velComponentsCalc_unit_scaled (v_desired : ℝ) (current target : PoseStamped ℝ)
    (h : current.pose.position ≠ target.pose.position) :
    0 < distanceBetween Real.sqrt current target ∧
    velComponentsCalc Real.sqrt v_desired current target =
      ⟨v_desired * (target.pose.position.x - current.pose.position.x) /
          distanceBetween Real.sqrt current target,
        v_desired * (target.pose.position.y - current.pose.position.y) /
          distanceBetween Real.sqrt current target,
        v_desired * (target.pose.position.z - current.pose.position.z) /
          distanceBetween Real.sqrt current target⟩ ∧
    (∃ c : ℝ, c = v_desired / distanceBetween Real.sqrt current target ∧
      (velComponentsCalc Real.sqrt v_desired current target).x =
        c * (target.pose.position.x - current.pose.position.x) ∧
      (velComponentsCalc Real.sqrt v_desired current target).y =
        c * (target.pose.position.y - current.pose.position.y) ∧
      (velComponentsCalc Real.sqrt v_desired current target).z =
        c * (target.pose.position.z - current.pose.position.z)) ∧
    √((velComponentsCalc Real.sqrt v_desired current target).x ^ 2 +
        (velComponentsCalc Real.sqrt v_desired current target).y ^ 2 +
        (velComponentsCalc Real.sqrt v_desired current target).z ^ 2) = |v_desired| := by
  obtain ⟨⟨⟨cx, cy, cz⟩, co⟩⟩ := current
  obtain ⟨⟨⟨tx, ty, tz⟩, tq⟩⟩ := target
  simp only at h ⊢
  have hne : ¬ (tx - cx = 0 ∧ ty - cy = 0 ∧ tz - cz = 0) := by
    rintro ⟨h1, h2, h3⟩
    apply h
    rw [sub_eq_zero] at h1 h2 h3
    rw [h1, h2, h3]
  have hd := sqrt_sqr_sum_pos hne
  have hdist : distanceBetween Real.sqrt ⟨⟨⟨cx, cy, cz⟩, co⟩⟩ ⟨⟨⟨tx, ty, tz⟩, tq⟩⟩ =
      √(sqr (tx - cx) + sqr (ty - cy) + sqr (tz - cz)) := by
    simp [distanceBetween, Vector3d.norm, sqr]
  rw [hdist]
  have hd2 : √(sqr (tx - cx) + sqr (ty - cy) + sqr (tz - cz)) ^ 2 =
      (tx - cx) ^ 2 + (ty - cy) ^ 2 + (tz - cz) ^ 2 := by
    rw [Real.sq_sqrt]
    · simp [sqr, pow_two]
    · unfold sqr; nlinarith [mul_self_nonneg (tx - cx), mul_self_nonneg (ty - cy),
        mul_self_nonneg (tz - cz)]
  set d := √(sqr (tx - cx) + sqr (ty - cy) + sqr (tz - cz)) with hdef
  have hd0 : d ≠ 0 := ne_of_gt hd
  refine ⟨hd, ?_, ⟨v_desired / d, rfl, ?_, ?_, ?_⟩, ?_⟩
  · simp only [velComponentsCalc, ← hdef]
    congr 1 <;> ring
  · simp only [velComponentsCalc, ← hdef]; ring
  · simp only [velComponentsCalc, ← hdef]; ring
  · simp only [velComponentsCalc, ← hdef]; ring
  · simp only [velComponentsCalc, ← hdef]
    have : ((tx - cx) / d * v_desired) ^ 2 + ((ty - cy) / d * v_desired) ^ 2 +
        ((tz - cz) / d * v_desired) ^ 2 = v_desired ^ 2 := by
      have hd2' : d ^ 2 ≠ 0 := pow_ne_zero 2 hd0
      field_simp
      rw [hd2]; ring
    rw [this, Real.sqrt_sq_eq_abs]

/-- The theorem `velComponentsCalc_unit_scaled` at speed `2`, from the origin toward
`(3, 0, 4)`. -/
theorem velComponentsCalc_unit_scaled_witness :
    0 < distanceBetween Real.sqrt (targetTransfer (0 : ℝ) 0 0) (targetTransfer 3 0 4) ∧
    √((velComponentsCalc Real.sqrt 2 (targetTransfer (0 : ℝ) 0 0) (targetTransfer 3 0 4)).x ^ 2 +
        (velComponentsCalc Real.sqrt 2 (targetTransfer (0 : ℝ) 0 0) (targetTransfer 3 0 4)).y ^ 2 +
        (velComponentsCalc Real.sqrt 2 (targetTransfer (0 : ℝ) 0 0) (targetTransfer 3 0 4)).z ^ 2)
      = |(2 : ℝ)| :=
  have h := velComponentsCalc_unit_scaled 2 (targetTransfer (0 : ℝ) 0 0) (targetTransfer 3 0 4)
    (by simp [targetTransfer])
  ⟨h.1, h.2.2.2⟩

/-- C5: with a rate limit `yaw_rate_ ≥ 0`, the heading `this_loop_alpha` of an Enroute
iteration is the current yaw plus the yaw error clamped to `[-yaw_rate_, yaw_rate_]`; it
differs from the current yaw by at most `yaw_rate_`, lies between the current yaw and the
target, and is the target when the target is within `yaw_rate_` of the current yaw. -/
theorem thisLoopAlpha_clamp {K : Type} [LinearOrderedField K] (yaw_rate_ yaw_ target_alpha : K)
    (h : 0 ≤ yaw_rate_) :
    thisLoopAlpha yaw_rate_ yaw_ target_alpha =
      yaw_ + max (-yaw_rate_) (min (target_alpha - yaw_) yaw_rate_) ∧
    |thisLoopAlpha yaw_rate_ yaw_ target_alpha - yaw_| ≤ yaw_rate_ ∧
    (min yaw_ target_alpha ≤ thisLoopAlpha yaw_rate_ yaw_ target_alpha ∧
      thisLoopAlpha yaw_rate_ yaw_ target_alpha ≤ max yaw_ target_alpha) ∧
    (|target_alpha - yaw_| ≤ yaw_rate_ →
      thisLoopAlpha yaw_rate_ yaw_ target_alpha = target_alpha) := by
  unfold thisLoopAlpha
  by_cases h1 : target_alpha ≤ yaw_
  · by_cases h2 : yaw_ - target_alpha > yaw_rate_
    · simp only [h1, h2, if_true]
      refine ⟨?_, ?_, ⟨?_, ?_⟩, ?_⟩
      · rw [min_eq_left (by linarith), max_eq_left (by linarith)]; ring
      · rw [abs_le]; constructor <;> linarith
      · rw [min_eq_right h1]; linarith
      · rw [max_eq_left h1]; linarith
      · intro h3; rw [abs_le] at h3; linarith [h3.1]
    · simp only [h1, h2, if_true, if_false]
      push_neg at h2
      refine ⟨?_, ?_, ⟨?_, ?_⟩, ?_⟩
      · rw [min_eq_left (by linarith), max_eq_right (by linarith)]; ring
      · rw [abs_le]; constructor <;> linarith
      · exact min_le_right _ _
      · rw [max_eq_left h1]; exact h1
      · intro _; trivial
  · by_cases h2 : target_alpha - yaw_ > yaw_rate_
    · simp only [h1, h2, if_true, if_false]
      push_neg at h1
      refine ⟨?_, ?_, ⟨?_, ?_⟩, ?_⟩
      · rw [min_eq_right (by linarith), max_eq_right (by linarith)]
      · rw [abs_le]; constructor <;> linarith
      · rw [min_eq_left h1.le]; linarith
      · rw [max_eq_right h1.le]; linarith
      · intro h3; rw [abs_le] at h3; linarith [h3.2]
    · simp only [h1, h2, if_false]
      push_neg at h1 h2
      refine ⟨?_, ?_, ⟨?_, ?_⟩, ?_⟩
      · rw [min_eq_left h2, max_eq_right (by linarith)]; ring
      · rw [abs_le]; constructor <;> linarith
      · rw [min_eq_left h1.le]; exact h1.le
      · exact le_max_right _ _
      · intro _; trivial

/-- The theorem `thisLoopAlpha_clamp` on `ℚ`: at rate `1/10`, yaw `0` and target `1`. -/
theorem thisLoopAlpha_clamp_witness :
    (0 : ℚ) ≤ 1 / 10 ∧
    thisLoopAlpha (1 / 10 : ℚ) 0 1 = 0 + max (-(1 / 10)) (min (1 - 0) (1 / 10)) :=
  ⟨by norm_num, (thisLoopAlpha_clamp (1 / 10 : ℚ) 0 1 (by norm_num)).1⟩

/-- C6: for a current yaw and a raw target yaw in `(-π, π]`, the normalised target is the raw
target, or the raw target plus or minus `2π`, and it is within `π` of the current yaw; at
current yaw `3` and raw target `-3` it is `-3 + 2π`. -/
theorem normalizeTargetAlpha_shortest (yaw_ target_yaw : ℝ)
    (hy : -π < yaw_ ∧ yaw_ ≤ π) (ht : -π < target_yaw ∧ target_yaw ≤ π) :
    (normalizeTargetAlpha π yaw_ target_yaw = target_yaw ∨
      normalizeTargetAlpha π yaw_ target_yaw = target_yaw + 2 * π ∨
      normalizeTargetAlpha π yaw_ target_yaw = target_yaw - 2 * π) ∧
    |yaw_ - normalizeTargetAlpha π yaw_ target_yaw| ≤ π ∧
    normalizeTargetAlpha π 3 (-3) = -3 + 2 * π := by
  have hpi := Real.pi_pos
  refine ⟨?_, ?_, ?_⟩
  · unfold normalizeTargetAlpha
    split_ifs <;> simp
  · unfold normalizeTargetAlpha
    split_ifs with h1 h2
    · rw [abs_le]; constructor <;> linarith [hy.1, hy.2, ht.1, ht.2]
    · rw [abs_le]; constructor <;> linarith [hy.1, hy.2, ht.1, ht.2]
    · push_neg at h1 h2
      rw [abs_le]; constructor <;> linarith
  · unfold normalizeTargetAlpha
    have h4 := Real.pi_le_four
    rw [if_pos (by linarith)]

/-- The theorem `normalizeTargetAlpha_shortest` at current yaw `3` and raw target `-3`. -/
theorem normalizeTargetAlpha_shortest_witness :
    |(3 : ℝ) - normalizeTargetAlpha π 3 (-3)| ≤ π :=
  (normalizeTargetAlpha_shortest 3 (-3)
    ⟨by linarith [Real.pi_pos], by linarith [Real.pi_gt_three]⟩
    ⟨by linarith [Real.pi_gt_three], by linarith [Real.pi_pos]⟩).2.1

/-- C9: `WGS84ToENU` of a fix with itself as the reference is `(0, 0, 0)`, whatever the
ellipsoid constants and the trigonometric functions. -/
theorem WGS84ToENU_self {K : Type} [LinearOrderedField K] (sqrt sin cos radianOf : K → K)
    (a e_sq : K) (F : NavSatFix K) :
    WGS84ToENU sqrt sin cos radianOf a e_sq F F = ⟨0, 0, 0⟩ := by
  simp [WGS84ToENU, ECEFToENU, WGS84ToECEF]

/-- The two-argument arctangent on the diagonal of the first quadrant. -/
theorem arg_one_one : Complex.arg ⟨1, 1⟩ = π / 4 := by
  have h := @Complex.arg_mul_cos_add_sin_mul_I (√2) (by positivity) (π / 4)
    ⟨by linarith [Real.pi_pos], by linarith [Real.pi_pos]⟩
  rw [← h, ← Complex.ofReal_cos, ← Complex.ofReal_sin, Real.cos_pi_div_four,
    Real.sin_pi_div_four]
  congr 1
  have h2 : √2 * √2 = 2 := Real.mul_self_sqrt (by norm_num)
  apply Complex.ext
  · simp
    linarith
  · simp
    linarith

/-- Reflection in the imaginary axis, upper half plane. -/
theorem arg_reflect_of_pos (x y : ℝ) (hy : 0 < y) :
    Complex.arg ⟨x, y⟩ = π - Complex.arg ⟨-x, y⟩ := by
  have h1 : (⟨-x, y⟩ : ℂ) = -(starRingEnd ℂ) ⟨x, y⟩ := by
    apply Complex.ext <;> simp
  have h2 : ((starRingEnd ℂ) (⟨x, y⟩ : ℂ)).im < 0 := by simp [hy]
  have h3 : Complex.arg (⟨x, y⟩ : ℂ) ≠ π := by
    intro h; rw [Complex.arg_eq_pi_iff] at h; simp at h; linarith [h.2]
  rw [h1, Complex.arg_neg_eq_arg_add_pi_of_im_neg h2, Complex.arg_conj, if_neg h3]
  ring

/-- Reflection in the origin, lower half plane. -/
theorem arg_neg_of_neg (x y : ℝ) (hy : y < 0) :
    Complex.arg ⟨x, y⟩ = Complex.arg ⟨-x, -y⟩ - π := by
  have h1 : (⟨-x, -y⟩ : ℂ) = -⟨x, y⟩ := by
    apply Complex.ext <;> simp
  have h2 : (⟨x, y⟩ : ℂ).im < 0 := by simp [hy]
  rw [h1, Complex.arg_neg_eq_arg_add_pi_of_im_neg h2]
  ring

/-- Reflection in the real axis, off the real axis. -/
theorem arg_conj_of_ne (x y : ℝ) (hy : y ≠ 0) :
    Complex.arg ⟨x, y⟩ = -Complex.arg ⟨x, -y⟩ := by
  have h1 : (⟨x, -y⟩ : ℂ) = (starRingEnd ℂ) ⟨x, y⟩ := by
    apply Complex.ext <;> simp
  have h3 : Complex.arg (⟨x, y⟩ : ℂ) ≠ π := by
    intro h; rw [Complex.arg_eq_pi_iff] at h; simp at h; exact hy h.2
  rw [h1, Complex.arg_conj, if_neg h3]
  ring

/-- The eight branches of `calculateYawOffset` against the two-argument arctangent. -/
theorem calculateYawOffset_arg (current setpoint : PoseStamped ℝ) :
    calculateYawOffset (fun y x => Complex.arg ⟨x, y⟩) π current setpoint =
      Complex.arg ⟨setpoint.pose.position.x - current.pose.position.x,
        setpoint.pose.position.y - current.pose.position.y⟩ := by
  obtain ⟨⟨⟨xc, yc, zc⟩, cq⟩⟩ := current
  obtain ⟨⟨⟨xs, ys, zs⟩, sq⟩⟩ := setpoint
  simp only [calculateYawOffset]
  rcases lt_trichotomy xs xc with hx | hx | hx <;>
    rcases lt_trichotomy ys yc with hy | hy | hy
  · have hx' : xs - xc < 0 := by linarith
    have hy' : ys - yc < 0 := by linarith
    rw [if_neg (by intro h; linarith [h.1]), if_neg (by intro h; linarith [h.2]),
      if_pos ⟨hx, hy⟩, abs_of_neg hx', abs_of_neg hy']
    exact (arg_neg_of_neg _ _ hy').symm
  · have hx' : xs - xc < 0 := by linarith
    subst hy
    rw [if_neg (by intro h; linarith [h.1]), if_neg (by intro h; linarith [h.2]),
      if_neg (by intro h; linarith [h.2]), if_neg (by intro h; linarith [h.2]),
      if_neg (by intro h; linarith [h.2]), if_neg (by intro h; linarith [h.2]),
      if_neg (by intro h; linarith [h.1]), if_pos ⟨hx, rfl⟩, abs_of_neg hx']
    simp only [sub_self, abs_zero, neg_sub]
    have h0 : Complex.arg ⟨xc - xs, 0⟩ = 0 := by
      rw [Complex.arg_eq_zero_iff]; constructor
      · show 0 ≤ xc - xs
        linarith
      · rfl
    have h1 : Complex.arg ⟨xs - xc, 0⟩ = π := by
      rw [Complex.arg_eq_pi_iff]; exact ⟨hx', rfl⟩
    rw [h0, h1]; ring
  · have hx' : xs - xc < 0 := by linarith
    have hy' : 0 < ys - yc := by linarith
    rw [if_neg (by intro h; linarith [h.1]), if_pos ⟨hx, hy⟩, abs_of_neg hx', abs_of_pos hy']
    exact (arg_reflect_of_pos _ _ hy').symm
  · subst hx
    have hy' : ys - yc < 0 := by linarith
    rw [if_neg (by intro h; linarith [h.1]), if_neg (by intro h; linarith [h.1]),
      if_neg (by intro h; linarith [h.1]), if_neg (by intro h; linarith [h.1]),
      if_neg (by intro h; linarith [h.2]), if_pos ⟨rfl, hy⟩, abs_of_neg hy']
    simp only [sub_self, abs_zero]
    exact (arg_conj_of_ne _ _ (ne_of_lt hy')).symm
  · subst hx; subst hy
    simp
  · subst hx
    have hy' : 0 < ys - yc := by linarith
    rw [if_neg (by intro h; linarith [h.1]), if_neg (by intro h; linarith [h.1]),
      if_neg (by intro h; linarith [h.1]), if_neg (by intro h; linarith [h.1]),
      if_pos ⟨rfl, hy⟩, abs_of_pos hy']
    simp only [sub_self, abs_zero]
  · have hx' : 0 < xs - xc := by linarith
    have hy' : ys - yc < 0 := by linarith
    rw [if_neg (by intro h; linarith [h.2]), if_neg (by intro h; linarith [h.1]),
      if_neg (by intro h; linarith [h.1]), if_pos ⟨hx, hy⟩, abs_of_pos hx', abs_of_neg hy']
    exact (arg_conj_of_ne _ _ (ne_of_lt hy')).symm
  · have hx' : 0 < xs - xc := by linarith
    subst hy
    rw [if_neg (by intro h; linarith [h.2]), if_neg (by intro h; linarith [h.1]),
      if_neg (by intro h; linarith [h.1]), if_neg (by intro h; linarith [h.2]),
      if_neg (by intro h; linarith [h.2]), if_neg (by intro h; linarith [h.2]),
      if_pos ⟨hx, rfl⟩, abs_of_pos hx']
    simp only [sub_self, abs_zero]
  · have hx' : 0 < xs - xc := by linarith
    have hy' : 0 < ys - yc := by linarith
    rw [if_pos ⟨hx, hy⟩, abs_of_pos hx', abs_of_pos hy']

/-- C8: for all positions, the eight-branch `calculateYawOffset` is the two-argument
arctangent of the signed differences, `atan2 (ys - yc) (xs - xc)`, where `atan2 0 0 = 0`. -/
theorem calculateYawOffset_eq_yawTargetAtan2 (current setpoint : PoseStamped ℝ) :
    calculateYawOffset (fun y x => Complex.arg ⟨x, y⟩) π current setpoint =
      yawTargetAtan2 (fun y x => Complex.arg ⟨x, y⟩) current setpoint ∧
    (fun y x : ℝ => Complex.arg ⟨x, y⟩) 0 0 = 0 := by
  refine ⟨calculateYawOffset_arg current setpoint, ?_⟩
  show Complex.arg ⟨0, 0⟩ = 0
  rw [Complex.arg_eq_zero_iff]
  exact ⟨le_refl _, rfl⟩

/-- C7: from `(0, 0)`, `calculateYawOffset` gives `π/4` toward `(1, 1)`, `3π/4` toward
`(-1, 1)`, `-3π/4` toward `(-1, -1)`, `-π/4` toward `(1, -1)`, `π/2` toward `(0, 1)` and `0`
toward `(1, 0)`. -/
theorem calculateYawOffset_quadrant_table (zc zs : ℝ) :
    calculateYawOffset (fun y x => Complex.arg ⟨x, y⟩) π
      (targetTransfer 0 0 zc) (targetTransfer 1 1 zs) = π / 4 ∧
    calculateYawOffset (fun y x => Complex.arg ⟨x, y⟩) π
      (targetTransfer 0 0 zc) (targetTransfer (-1) 1 zs) = 3 * π / 4 ∧
    calculateYawOffset (fun y x => Complex.arg ⟨x, y⟩) π
      (targetTransfer 0 0 zc) (targetTransfer (-1) (-1) zs) = -(3 * π / 4) ∧
    calculateYawOffset (fun y x => Complex.arg ⟨x, y⟩) π
      (targetTransfer 0 0 zc) (targetTransfer 1 (-1) zs) = -(π / 4) ∧
    calculateYawOffset (fun y x => Complex.arg ⟨x, y⟩) π
      (targetTransfer 0 0 zc) (targetTransfer 0 1 zs) = π / 2 ∧
    calculateYawOffset (fun y x => Complex.arg ⟨x, y⟩) π
      (targetTransfer 0 0 zc) (targetTransfer 1 0 zs) = 0 := by
  have h01 : Complex.arg ⟨0, 1⟩ = π / 2 := by
    rw [Complex.arg_eq_pi_div_two_iff]; exact ⟨rfl, by simp⟩
  have h10 : Complex.arg ⟨1, 0⟩ = 0 := by
    rw [Complex.arg_eq_zero_iff]; exact ⟨by simp, rfl⟩
  refine ⟨?_, ?_, ?_, ?_, ?_, ?_⟩
  · norm_num [calculateYawOffset, targetTransfer, arg_one_one]
  · norm_num [calculateYawOffset, targetTransfer, arg_one_one]; ring
  · norm_num [calculateYawOffset, targetTransfer, arg_one_one]; ring
  · norm_num [calculateYawOffset, targetTransfer, arg_one_one]
  · simp [calculateYawOffset, targetTransfer, h01]
  · simp [calculateYawOffset, targetTransfer, h10]

end Properties

section EnrouteProperties

variable {K : Type} [LinearOrderedField K]

/-- What one iteration of the Enroute loop computes from the snapshot it reads. -/
theorem enrouteTick_some {sqrt : K → K} {atan2 : K → K → K} {sin cos : K → K} {PI : K}
    {p : Params K} {i : Int} {current_hold : Point K} {cur : Snapshot K} {t : EnrouteTick K}
    (h : enrouteTick sqrt atan2 sin cos PI p i current_hold cur = some t) :
    enrouteSetpoint p i = some (t.final_position_reached_, t.setpoint) ∧
    t.current_odom_ = cur.current_odom_ ∧ t.yaw_ = cur.yaw_ ∧
    t.target_alpha = normalizeTargetAlpha PI cur.yaw_ (calculateYawOffset atan2 PI
      (targetTransfer cur.current_odom_.x cur.current_odom_.y cur.current_odom_.z)
      t.setpoint) ∧
    t.this_loop_alpha = thisLoopAlpha p.yaw_rate_ cur.yaw_ t.target_alpha ∧
    t.components_vel_ =
      (if distanceBetween sqrt
          (targetTransfer cur.current_odom_.x cur.current_odom_.y cur.current_odom_.z)
          t.setpoint < 3
        then velComponentsCalc sqrt 0.3
          (targetTransfer cur.current_odom_.x cur.current_odom_.y cur.current_odom_.z)
          t.setpoint
        else velComponentsCalc sqrt p.vel_desired_
          (targetTransfer cur.current_odom_.x cur.current_odom_.y cur.current_odom_.z)
          t.setpoint) ∧
    t.target_enu_pose_.pose.orientation = createQuaternionMsgFromYaw sin cos t.this_loop_alpha ∧
    (t.yawErrorSmall →
      t.target_enu_pose_.pose.position =
        ⟨cur.current_odom_.x + t.components_vel_.x, cur.current_odom_.y + t.components_vel_.y,
          cur.current_odom_.z + t.components_vel_.z⟩ ∧
      t.current_hold = cur.current_odom_) ∧
    (¬ t.yawErrorSmall →
      t.target_enu_pose_.pose.position = current_hold ∧ t.current_hold = current_hold) := by
  simp only [enrouteTick, Option.bind_eq_some, Option.some.injEq] at h
  obtain ⟨sel, hsel, next_i, -, rfl⟩ := h
  refine ⟨hsel, rfl, rfl, rfl, rfl, rfl, ?_, ?_, ?_⟩
  · dsimp only
    split_ifs <;> rfl
  · intro hs
    dsimp only [EnrouteTick.yawErrorSmall] at hs ⊢
    rw [if_pos hs]
    exact ⟨rfl, rfl⟩
  · intro hs
    dsimp only [EnrouteTick.yawErrorSmall] at hs ⊢
    rw [if_neg hs]
    exact ⟨rfl, rfl⟩

/-- The index bookkeeping of one iteration of the Enroute loop. -/
theorem enrouteTick_index {sqrt : K → K} {atan2 : K → K → K} {sin cos : K → K} {PI : K}
    {p : Params K} {i : Int} {current_hold : Point K} {cur : Snapshot K} {t : EnrouteTick K}
    (h : enrouteTick sqrt atan2 sin cos PI p i current_hold cur = some t) :
    t.i = i ∧
    t.target_reached = checkPositionError sqrt cur.current_odom_ p.target_error_ t.setpoint ∧
    enrouteNextIndex p i t.target_reached t.final_position_reached_ = some t.next_i := by
  simp only [enrouteTick, Option.bind_eq_some, Option.some.injEq] at h
  obtain ⟨sel, -, next_i, hnext, rfl⟩ := h
  exact ⟨rfl, rfl, hnext⟩

/-- The hold position an iteration of the Enroute loop starts from: each iteration of a run
is `enrouteTick` on its snapshot, started from the odometry position of the latest earlier
iteration with a small yaw error, or from the initial hold position when there is none. -/
theorem enrouteLoop_hold (sqrt : K → K) (atan2 : K → K → K) (sin cos : K → K) (PI : K)
    (p : Params K) (snaps : List (Snapshot K)) :
    ∀ (i : Int) (hold : Point K) (cur : Snapshot K) (L : List (EnrouteTick K)),
      enrouteLoop sqrt atan2 sin cos PI p i hold cur snaps = some L →
      ∀ (n : ℕ) (t : EnrouteTick K), L[n]? = some t →
        ∃ (s : Snapshot K) (j : Int) (h0 : Point K),
          (cur :: snaps)[n]? = some s ∧
          enrouteTick sqrt atan2 sin cos PI p j h0 s = some t ∧
          ((∃ (m : ℕ) (tm : EnrouteTick K), m < n ∧ L[m]? = some tm ∧ tm.yawErrorSmall ∧
              (∀ (k : ℕ) (tk : EnrouteTick K), m < k → k < n → L[k]? = some tk →
                ¬ tk.yawErrorSmall) ∧
              h0 = tm.current_odom_) ∨
            ((∀ (k : ℕ) (tk : EnrouteTick K), k < n → L[k]? = some tk →
                ¬ tk.yawErrorSmall) ∧
              h0 = hold)) := by
  induction snaps with
  | nil =>
    intro i hold cur L hL n t hn
    simp only [enrouteLoop] at hL
    split_ifs at hL with hok
    · rw [Option.map_eq_some'] at hL
      obtain ⟨t0, ht0, rfl⟩ := hL
      cases n with
      | zero =>
        simp only [List.getElem?_cons_zero, Option.some.injEq] at hn
        subst hn
        exact ⟨cur, i, hold, rfl, ht0, Or.inr ⟨fun k tk hk => absurd hk (Nat.not_lt_zero k), rfl⟩⟩
      | succ n => simp at hn
    · simp only [Option.some.injEq] at hL
      subst hL
      simp at hn
  | cons s' rest ih =>
    intro i hold cur L hL n t hn
    simp only [enrouteLoop] at hL
    split_ifs at hL with hok
    · cases ht0 : enrouteTick sqrt atan2 sin cos PI p i hold cur with
      | none => rw [ht0] at hL; simp at hL
      | some t0 =>
        rw [ht0] at hL
        simp only at hL
        have hzero : ∀ t, (some t0 : Option (EnrouteTick K)) = some t →
            ∃ (s : Snapshot K) (j : Int) (h0 : Point K),
              (cur :: s' :: rest)[0]? = some s ∧
              enrouteTick sqrt atan2 sin cos PI p j h0 s = some t ∧
              ((∃ (m : ℕ) (tm : EnrouteTick K), m < 0 ∧ L[m]? = some tm ∧ tm.yawErrorSmall ∧
                  (∀ (k : ℕ) (tk : EnrouteTick K), m < k → k < 0 → L[k]? = some tk →
                    ¬ tk.yawErrorSmall) ∧
                  h0 = tm.current_odom_) ∨
                ((∀ (k : ℕ) (tk : EnrouteTick K), k < 0 → L[k]? = some tk →
                    ¬ tk.yawErrorSmall) ∧
                  h0 = hold)) := by
          intro t ht
          simp only [Option.some.injEq] at ht
          subst ht
          exact ⟨cur, i, hold, rfl, ht0,
            Or.inr ⟨fun k tk hk => absurd hk (Nat.not_lt_zero k), rfl⟩⟩
        split_ifs at hL with hfin
        · simp only [Option.some.injEq] at hL
          subst hL
          cases n with
          | zero => exact hzero t (by simpa using hn)
          | succ n => simp at hn
        · rw [Option.map_eq_some'] at hL
          obtain ⟨L', hL', rfl⟩ := hL
          cases n with
          | zero => exact hzero t (by simpa using hn)
          | succ n =>
            simp only [List.getElem?_cons_succ] at hn
            obtain ⟨s, j, h0, hs, htick, hhold⟩ := ih t0.next_i t0.current_hold s' L' hL' n t hn
            refine ⟨s, j, h0, by simpa using hs, htick, ?_⟩
            have hfacts := enrouteTick_some ht0
            rcases hhold with ⟨m, tm, hm, hLm, hsm, hbetween, hh0⟩ | ⟨hall, hh0⟩
            · refine Or.inl ⟨m + 1, tm, by omega, by simpa using hLm, hsm, ?_, hh0⟩
              intro k tk hmk hkn hLk
              cases k with
              | zero => omega
              | succ k =>
                simp only [List.getElem?_cons_succ] at hLk
                exact hbetween k tk (by omega) (by omega) hLk
            · by_cases hsmall : t0.yawErrorSmall
              · refine Or.inl ⟨0, t0, by omega, by simp, hsmall, ?_, ?_⟩
                · intro k tk hmk hkn hLk
                  cases k with
                  | zero => omega
                  | succ k =>
                    simp only [List.getElem?_cons_succ] at hLk
                    exact hall k tk (by omega) hLk
                · rw [hh0, (hfacts.2.2.2.2.2.2.2.1 hsmall).2, hfacts.2.1]
              · refine Or.inr ⟨?_, ?_⟩
                · intro k tk hkn hLk
                  cases k with
                  | zero =>
                    simp only [List.getElem?_cons_zero, Option.some.injEq] at hLk
                    subst hLk
                    exact hsmall
                  | succ k =>
                    simp only [List.getElem?_cons_succ] at hLk
                    exact hall k tk (by omega) hLk
                · rw [hh0, (hfacts.2.2.2.2.2.2.2.2 hsmall).2]
    · simp only [Option.some.injEq] at hL
      subst hL
      simp at hn


/-- C10, as amended: on every Enroute iteration of a run, the values are those computed
from the snapshot of that iteration and the heading is `this_loop_alpha`; when the yaw error
is below `0.2` rad the published position is the odometry position plus the velocity vector
and the hold position becomes the odometry position; otherwise the published position is the
hold position, which is the odometry position of the latest earlier iteration whose yaw error
was below `0.2` rad or, when there is none, the odometry position on entry to the loop. -/
theorem enroute_hold_policy (sqrt : K → K) (atan2 : K → K → K) (sin cos : K → K) (PI : K)
    (p : Params K) (cur : Snapshot K) (snaps : List (Snapshot K)) (L : List (EnrouteTick K))
    (h : enuYawFlightAndLandingSetpoint sqrt atan2 sin cos PI p cur snaps = some L)
    (n : ℕ) (t : EnrouteTick K) (hn : L[n]? = some t) :
    ∃ s : Snapshot K, (cur :: snaps)[n]? = some s ∧
      t.current_odom_ = s.current_odom_ ∧ t.yaw_ = s.yaw_ ∧
      t.target_alpha = normalizeTargetAlpha PI s.yaw_ (calculateYawOffset atan2 PI
        (targetTransfer s.current_odom_.x s.current_odom_.y s.current_odom_.z) t.setpoint) ∧
      t.this_loop_alpha = thisLoopAlpha p.yaw_rate_ s.yaw_ t.target_alpha ∧
      t.components_vel_ =
        (if distanceBetween sqrt
            (targetTransfer s.current_odom_.x s.current_odom_.y s.current_odom_.z)
            t.setpoint < 3
          then velComponentsCalc sqrt 0.3
            (targetTransfer s.current_odom_.x s.current_odom_.y s.current_odom_.z) t.setpoint
          else velComponentsCalc sqrt p.vel_desired_
            (targetTransfer s.current_odom_.x s.current_odom_.y s.current_odom_.z)
            t.setpoint) ∧
      t.target_enu_pose_.pose.orientation =
        createQuaternionMsgFromYaw sin cos t.this_loop_alpha ∧
      (t.yawErrorSmall →
        t.target_enu_pose_.pose.position =
          ⟨s.current_odom_.x + t.components_vel_.x, s.current_odom_.y + t.components_vel_.y,
            s.current_odom_.z + t.components_vel_.z⟩ ∧
        t.current_hold = s.current_odom_) ∧
      (¬ t.yawErrorSmall →
        t.target_enu_pose_.pose.position = t.current_hold ∧
        ((∃ (m : ℕ) (tm : EnrouteTick K), m < n ∧ L[m]? = some tm ∧ tm.yawErrorSmall ∧
            (∀ (k : ℕ) (tk : EnrouteTick K), m < k → k < n → L[k]? = some tk →
              ¬ tk.yawErrorSmall) ∧
            t.current_hold = tm.current_odom_) ∨
          ((∀ (k : ℕ) (tk : EnrouteTick K), k < n → L[k]? = some tk →
              ¬ tk.yawErrorSmall) ∧
            t.current_hold = cur.current_odom_))) := by
  simp only [enuYawFlightAndLandingSetpoint, Option.bind_eq_some] at h
  obtain ⟨_, -, _, -, _, -, hloop⟩ := h
  obtain ⟨s, j, h0, hs, htick, hhold⟩ :=
    enrouteLoop_hold sqrt atan2 sin cos PI p snaps 0 _ cur L hloop n t hn
  obtain ⟨-, f1, f2, f3, f4, f5, f6, f7, f8⟩ := enrouteTick_some htick
  refine ⟨s, hs, f1, f2, f3, f4, f5, f6, f7, ?_⟩
  intro hlarge
  obtain ⟨g1, g2⟩ := f8 hlarge
  refine ⟨by rw [g1, g2], ?_⟩
  rcases hhold with ⟨m, tm, hm, hLm, hsm, hbetween, hh0⟩ | ⟨hall, hh0⟩
  · exact Or.inl ⟨m, tm, hm, hLm, hsm, hbetween, by rw [g2, hh0]⟩
  · exact Or.inr ⟨hall, by rw [g2, hh0]⟩

open Real in
/-- An iteration of the one-waypoint mission at a position `(0, y, 5)` short of the waypoint:
the bearing of the waypoint is `π / 2`. -/
theorem oneWaypoint_tick (hold : Point ℝ) (y yaw : ℝ) (hy : y < 5) :
    ∃ t : EnrouteTick ℝ,
      enrouteTick Real.sqrt (fun y x => Complex.arg ⟨x, y⟩) Real.sin Real.cos π
        (oneWaypoint ℝ) 0 hold (flying 0 y 5 yaw) = some t ∧
      t.next_i = 0 ∧ t.final_position_reached_ = true ∧
      t.target_reached = decide (5 - y < 1 / 2) ∧
      t.yaw_ = yaw ∧ t.target_alpha = normalizeTargetAlpha π yaw (π / 2) := by
  have hsp : enrouteSetpoint (oneWaypoint ℝ) 0 = some (true, targetTransfer 0 5 5) := by
    simp [enrouteSetpoint, oneWaypoint, vectorAt]
  have hyaw : calculateYawOffset (fun y x => Complex.arg ⟨x, y⟩) π
      (targetTransfer 0 y 5) (targetTransfer 0 5 5) = π / 2 := by
    rw [calculateYawOffset_arg, Complex.arg_eq_pi_div_two_iff]
    simp [targetTransfer, hy]
  have hsqrt : √((5 - y) * (5 - y)) = 5 - y := Real.sqrt_mul_self (by linarith)
  have hex : ∃ t : EnrouteTick ℝ,
      enrouteTick Real.sqrt (fun y x => Complex.arg ⟨x, y⟩) Real.sin Real.cos π
        (oneWaypoint ℝ) 0 hold (flying 0 y 5 yaw) = some t := by
    simp only [enrouteTick, hsp, Option.some_bind, enrouteNextIndex, Bool.not_true,
      Bool.and_false, Bool.false_eq_true, if_false]
    exact ⟨_, rfl⟩
  obtain ⟨t, ht⟩ := hex
  obtain ⟨hset, -, f2, f3, -⟩ := enrouteTick_some ht
  obtain ⟨-, hreached, hnext⟩ := enrouteTick_index ht
  rw [hsp, Option.some.injEq, Prod.mk.injEq] at hset
  obtain ⟨hfin, hsetp⟩ := hset
  refine ⟨t, ht, ?_, hfin.symm, ?_, f2, ?_⟩
  · rw [← hfin] at hnext
    simpa [enrouteNextIndex] using hnext.symm
  · rw [hreached, ← hsetp]
    simp [checkPositionError, Vector3d.norm, targetTransfer, flying, oneWaypoint, hsqrt]
  · rw [f3, ← hsetp]
    simp only [flying]
    rw [hyaw]

open Real in
/-- In the one-waypoint mission, facing `0` short of the waypoint is a yaw error that is not
small. -/
theorem oneWaypoint_large (t : EnrouteTick ℝ) (hyaw : t.yaw_ = 0)
    (ht : t.target_alpha = normalizeTargetAlpha π 0 (π / 2)) : ¬ t.yawErrorSmall := by
  have h3 := Real.pi_gt_three
  have hn : normalizeTargetAlpha π 0 (π / 2) = π / 2 := by
    unfold normalizeTargetAlpha
    rw [if_neg (by linarith), if_neg (by linarith)]
  unfold EnrouteTick.yawErrorSmall
  rw [hyaw, ht, hn, zero_sub, abs_neg, abs_of_pos (by linarith)]
  norm_num
  linarith

open Real in
/-- The one-waypoint mission entered at `(0, 0, 5)` facing `3/2` rad and then observed at
`(0, 1, 5)` facing `0`: two iterations run, the second with a yaw error that is not small. -/
theorem oneWaypoint_run :
    ∃ t0 t1 : EnrouteTick ℝ,
      enuYawFlightAndLandingSetpoint Real.sqrt (fun y x => Complex.arg ⟨x, y⟩) Real.sin
        Real.cos π (oneWaypoint ℝ) (flying 0 0 5 (3 / 2)) [flying 0 1 5 0] = some [t0, t1] ∧
      ¬ t1.yawErrorSmall := by
  obtain ⟨t0, h0, hi0, hf0, hr0, -, -⟩ := oneWaypoint_tick ⟨0, 0, 5⟩ 0 (3 / 2) (by norm_num)
  obtain ⟨t1, h1, -, -, -, hy1, ha1⟩ := oneWaypoint_tick t0.current_hold 1 0 (by norm_num)
  refine ⟨t0, t1, ?_, oneWaypoint_large t1 hy1 ha1⟩
  have hr : t0.target_reached = false := by rw [hr0]; norm_num
  have hv : vectorAt (oneWaypoint ℝ).x_target_ 0 = some 0 ∧
      vectorAt (oneWaypoint ℝ).y_target_ 0 = some 5 ∧
      vectorAt (oneWaypoint ℝ).z_target_ 0 = some 5 := by
    simp [oneWaypoint, vectorAt]
  have hh : (⟨(flying (0 : ℝ) 0 5 (3 / 2)).current_odom_.x,
      (flying (0 : ℝ) 0 5 (3 / 2)).current_odom_.y,
      (flying (0 : ℝ) 0 5 (3 / 2)).current_odom_.z⟩ : Point ℝ) = ⟨0, 0, 5⟩ := rfl
  have hok : ∀ x y z w : ℝ, (flying x y z w).ok = true := fun _ _ _ _ => rfl
  simp only [enuYawFlightAndLandingSetpoint, hv.1, hv.2.1, hv.2.2, Option.some_bind, hh,
    enrouteLoop, hok, if_true, h0, hr, hi0, h1, Bool.false_and, Bool.false_eq_true,
    if_false, Option.map_some']

open Real in
/-- The one-waypoint mission entered at `(0, 0, 5)` facing `0`: one iteration runs, with a yaw
error that is not small. -/
theorem oneWaypoint_first :
    ∃ t0 : EnrouteTick ℝ,
      enuYawFlightAndLandingSetpoint Real.sqrt (fun y x => Complex.arg ⟨x, y⟩) Real.sin
        Real.cos π (oneWaypoint ℝ) (flying 0 0 5 0) [] = some [t0] ∧
      ¬ t0.yawErrorSmall := by
  obtain ⟨t0, h0, -, -, -, hy0, ha0⟩ := oneWaypoint_tick ⟨0, 0, 5⟩ 0 0 (by norm_num)
  refine ⟨t0, ?_, oneWaypoint_large t0 hy0 ha0⟩
  have hv : vectorAt (oneWaypoint ℝ).x_target_ 0 = some 0 ∧
      vectorAt (oneWaypoint ℝ).y_target_ 0 = some 5 ∧
      vectorAt (oneWaypoint ℝ).z_target_ 0 = some 5 := by
    simp [oneWaypoint, vectorAt]
  have hh : (⟨(flying (0 : ℝ) 0 5 0).current_odom_.x, (flying (0 : ℝ) 0 5 0).current_odom_.y,
      (flying (0 : ℝ) 0 5 0).current_odom_.z⟩ : Point ℝ) = ⟨0, 0, 5⟩ := rfl
  have hok : ∀ x y z w : ℝ, (flying x y z w).ok = true := fun _ _ _ _ => rfl
  simp only [enuYawFlightAndLandingSetpoint, hv.1, hv.2.1, hv.2.2, Option.some_bind, hh,
    enrouteLoop, hok, if_true, h0, Option.map_some']

open Real in
/-- C10, as the claim states it, fails: in the one-waypoint mission entered at `(0, 0, 5)`
facing `0`, the first iteration has a yaw error that is not small and no earlier iteration
exists whose position it could publish. -/
theorem publishesLastSmallErrorPosition_fails :
    ∃ L : List (EnrouteTick ℝ),
      enuYawFlightAndLandingSetpoint Real.sqrt (fun y x => Complex.arg ⟨x, y⟩) Real.sin
        Real.cos π (oneWaypoint ℝ) (flying 0 0 5 0) [] = some L ∧
      ¬ PublishesLastSmallErrorPosition L := by
  obtain ⟨t0, hrun, hlarge⟩ := oneWaypoint_first
  refine ⟨[t0], hrun, ?_⟩
  intro hclaim
  obtain ⟨m, -, hm, -⟩ := hclaim 0 t0 rfl hlarge
  exact Nat.not_lt_zero m hm

open Real in
/-- The theorem `enroute_hold_policy` on the one-waypoint mission entered at `(0, 0, 5)`
facing `3/2` rad and then observed at `(0, 1, 5)` facing `0`: the second iteration publishes
the position `(0, 0, 5)` of the first. -/
theorem enroute_hold_policy_witness :
    ∃ (L : List (EnrouteTick ℝ)) (t1 : EnrouteTick ℝ),
      enuYawFlightAndLandingSetpoint Real.sqrt (fun y x => Complex.arg ⟨x, y⟩) Real.sin
        Real.cos π (oneWaypoint ℝ) (flying 0 0 5 (3 / 2)) [flying 0 1 5 0] = some L ∧
      L[1]? = some t1 ∧ ¬ t1.yawErrorSmall ∧
      t1.target_enu_pose_.pose.position = ⟨0, 0, 5⟩ := by
  obtain ⟨t0, t1, hrun, hlarge⟩ := oneWaypoint_run
  refine ⟨[t0, t1], t1, hrun, rfl, hlarge, ?_⟩
  obtain ⟨s0, hs0, hodom0, -⟩ := enroute_hold_policy Real.sqrt (fun y x => Complex.arg ⟨x, y⟩)
    Real.sin Real.cos π (oneWaypoint ℝ) (flying 0 0 5 (3 / 2)) [flying 0 1 5 0] [t0, t1] hrun
    0 t0 rfl
  obtain ⟨s, -, -, -, -, -, -, -, -, hhold⟩ :=
    enroute_hold_policy Real.sqrt (fun y x => Complex.arg ⟨x, y⟩)
      Real.sin Real.cos π (oneWaypoint ℝ) (flying 0 0 5 (3 / 2)) [flying 0 1 5 0] [t0, t1] hrun
      1 t1 rfl
  obtain ⟨hpos, hcases⟩ := hhold hlarge
  simp only [List.getElem?_cons_zero, Option.some.injEq] at hs0
  subst hs0
  rw [hpos]
  rcases hcases with ⟨m, tm, hm, hLm, -, -, hh⟩ | ⟨-, hh⟩
  · have hm0 : m = 0 := by omega
    subst hm0
    simp only [List.getElem?_cons_zero, Option.some.injEq] at hLm
    subst hLm
    rw [hh, hodom0]; rfl
  · rw [hh]; rfl

end EnrouteProperties

section CalibrationProperties

variable {K : Type} [LinearOrderedField K]

/-- The sampling loop of `waitForStable` completes when enough snapshots follow. -/
theorem sampleLoop_some (sqrt sin cos radianOf : K → K) (a e_sq : K) (ref : NavSatFix K) :
    ∀ (n : ℕ) (cur : Snapshot K) (snaps : List (Snapshot K)), n ≤ snaps.length →
      ∃ r, sampleLoop sqrt sin cos radianOf a e_sq ref n cur snaps = some r := by
  intro n
  induction n with
  | zero => intro cur snaps _; exact ⟨_, rfl⟩
  | succ n ih =>
    intro cur snaps hlen
    cases snaps with
    | nil => simp at hlen
    | cons s rest =>
      obtain ⟨r, hr⟩ := ih s rest (by simpa using hlen)
      simp only [sampleLoop, hr, Option.map_some']
      exact ⟨_, rfl⟩

/-- The samples of the sampling loop of `waitForStable`, the snapshot it ends in and the
snapshots it leaves. -/
theorem sampleLoop_spec (sqrt sin cos radianOf : K → K) (a e_sq : K) (ref : NavSatFix K) :
    ∀ (n : ℕ) (cur : Snapshot K) (snaps : List (Snapshot K))
      (r : List (Point K) × Snapshot K × List (Snapshot K)),
      sampleLoop sqrt sin cos radianOf a e_sq ref n cur snaps = some r →
      r.1.length = n ∧ (cur :: snaps)[n]? = some r.2.1 ∧ r.2.2 = snaps.drop n ∧
      ∀ (k : ℕ) (s : Snapshot K), k < n → (cur :: snaps)[k]? = some s →
        r.1[k]? = some
          ⟨s.current_odom_.x -
              (WGS84ToENU sqrt sin cos radianOf a e_sq s.current_gps_position_ ref).x,
            s.current_odom_.y -
              (WGS84ToENU sqrt sin cos radianOf a e_sq s.current_gps_position_ ref).y,
            s.current_odom_.z -
              (WGS84ToENU sqrt sin cos radianOf a e_sq s.current_gps_position_ ref).z⟩ := by
  intro n
  induction n with
  | zero =>
    intro cur snaps r h
    simp only [sampleLoop, Option.some.injEq] at h
    subst h
    exact ⟨rfl, by simp, by simp, fun k s hk => absurd hk (Nat.not_lt_zero k)⟩
  | succ n ih =>
    intro cur snaps r h
    cases snaps with
    | nil => simp [sampleLoop] at h
    | cons s' rest =>
      simp only [sampleLoop, Option.map_eq_some'] at h
      obtain ⟨r', hr', rfl⟩ := h
      obtain ⟨hlen, hlast, hrest, hsamples⟩ := ih s' rest r' hr'
      refine ⟨by simp [hlen], by simpa using hlast, by simpa using hrest, ?_⟩
      intro k s hk hs
      cases k with
      | zero =>
        simp only [List.getElem?_cons_zero, Option.some.injEq] at hs
        subst hs
        simp
      | succ k =>
        simp only [List.getElem?_cons_succ] at hs ⊢
        exact hsamples k s (by omega) hs

/-- The method `waitForStable` completes when at least `100` snapshots follow. -/
theorem waitForStable_some (sqrt sin cos radianOf : K → K) (a e_sq x_offset_ y_offset_ z_offset_ : K)
    (cur : Snapshot K) (snaps : List (Snapshot K)) (h : 100 ≤ snaps.length) :
    ∃ r, waitForStable sqrt sin cos radianOf a e_sq x_offset_ y_offset_ z_offset_ cur snaps =
      some r := by
  obtain ⟨r, hr⟩ := sampleLoop_some sqrt sin cos radianOf a e_sq cur.current_gps_position_
    100 cur snaps h
  simp only [waitForStable, hr, Option.map_some']
  exact ⟨_, rfl⟩

/-- The home pose and the home fix `waitForStable` captures: those of the snapshot after the
last spin of the sampling window, the yaw going through `targetTransfer(x, y, z, yaw)`. -/
theorem waitForStable_home {sqrt sin cos radianOf : K → K} {a e_sq x_offset_ y_offset_ z_offset_ : K}
    {cur : Snapshot K} {snaps : List (Snapshot K)} {r : Stable K × Snapshot K × List (Snapshot K)}
    (h : waitForStable sqrt sin cos radianOf a e_sq x_offset_ y_offset_ z_offset_ cur snaps =
      some r) :
    (cur :: snaps)[100]? = some r.2.1 ∧
    r.1.home_enu_pose_ = targetTransferYaw sin cos radianOf r.2.1.current_odom_.x
      r.2.1.current_odom_.y r.2.1.current_odom_.z r.2.1.yaw_ ∧
    r.1.home_gps_position_ = r.2.1.current_gps_position_ := by
  simp only [waitForStable, Option.map_eq_some'] at h
  obtain ⟨r', hr', rfl⟩ := h
  obtain ⟨-, hlast, -, -⟩ := sampleLoop_spec sqrt sin cos radianOf a e_sq _ 100 cur snaps r' hr'
  exact ⟨hlast, rfl, rfl⟩

/-- C15, as amended: when at least `100` snapshots follow, `waitForStable` completes and
every offset sample is the odometry position of its tick minus the local coordinates of the
fix of that tick about the fix that was current on entry (`ref_gps_position_`, set once
before the window); it is the odometry position of the tick whenever the fix of the tick is
the entry fix. -/
theorem waitForStable_samples (sqrt sin cos radianOf : K → K)
    (a e_sq x_offset_ y_offset_ z_offset_ : K) (cur : Snapshot K) (snaps : List (Snapshot K))
    (hlen : 100 ≤ snaps.length) :
    ∃ r, waitForStable sqrt sin cos radianOf a e_sq x_offset_ y_offset_ z_offset_ cur snaps =
        some r ∧
      r.1.ref_gps_position_ = cur.current_gps_position_ ∧ r.1.off_.length = 100 ∧
      ∀ (n : ℕ) (s : Snapshot K), n < 100 → (cur :: snaps)[n]? = some s →
        r.1.off_[n]? = some
          ⟨s.current_odom_.x - (WGS84ToENU sqrt sin cos radianOf a e_sq s.current_gps_position_
              cur.current_gps_position_).x,
            s.current_odom_.y - (WGS84ToENU sqrt sin cos radianOf a e_sq s.current_gps_position_
              cur.current_gps_position_).y,
            s.current_odom_.z - (WGS84ToENU sqrt sin cos radianOf a e_sq s.current_gps_position_
              cur.current_gps_position_).z⟩ ∧
        (s.current_gps_position_ = cur.current_gps_position_ →
          r.1.off_[n]? = some s.current_odom_) := by
  obtain ⟨r, hr⟩ := waitForStable_some sqrt sin cos radianOf a e_sq x_offset_ y_offset_
    z_offset_ cur snaps hlen
  refine ⟨r, hr, ?_⟩
  have h := hr
  simp only [waitForStable, Option.map_eq_some'] at h
  obtain ⟨r', hr', rfl⟩ := h
  obtain ⟨hlen', -, -, hsamples⟩ :=
    sampleLoop_spec sqrt sin cos radianOf a e_sq _ 100 cur snaps r' hr'
  refine ⟨rfl, hlen', ?_⟩
  intro n s hn hs
  have hk := hsamples n s hn hs
  refine ⟨hk, ?_⟩
  intro hfix
  dsimp only at hk ⊢
  rw [hk, hfix]
  simp [WGS84ToENU, ECEFToENU, WGS84ToECEF]

open Real in
/-- On the equator at longitude zero, a fix one metre above the reference has the local
coordinates `(0, 0, 1)`. -/
theorem WGS84ToENU_one_up (a e_sq : ℝ) :
    WGS84ToENU Real.sqrt Real.sin Real.cos (fun deg => deg * π / 180) a e_sq
      ⟨0, 0, 1⟩ ⟨0, 0, 0⟩ = ⟨0, 0, 1⟩ := by
  simp [WGS84ToENU, ECEFToENU, WGS84ToECEF]

open Real in
/-- C15, as the claim states it, fails: when the fix rises by one metre after the first
sample while the vehicle rests at the origin, the second sample is `(0, 0, -1)`, not the
odometry position minus the fix's coordinates about itself. -/
theorem samplesUseOwnReference_fails :
    ∃ r, waitForStable Real.sqrt Real.sin Real.cos (fun deg => deg * π / 180) 6378137
        (669438 / 100000000) 0 0 0 (flying 0 0 0 0)
        (List.replicate 100 (withFix (flying 0 0 0 0) ⟨0, 0, 1⟩)) = some r ∧
      r.1.off_[1]? = some ⟨0, 0, -1⟩ ∧
      ¬ SamplesUseOwnReference Real.sqrt Real.sin Real.cos (fun deg => deg * π / 180) 6378137
        (669438 / 100000000)
        (flying 0 0 0 0 :: List.replicate 100 (withFix (flying 0 0 0 0) ⟨0, 0, 1⟩)) r.1.off_ := by
  obtain ⟨r, hr⟩ := waitForStable_some Real.sqrt Real.sin Real.cos (fun deg => deg * π / 180)
    6378137 (669438 / 100000000) 0 0 0 (flying 0 0 0 0)
    (List.replicate 100 (withFix (flying 0 0 0 0) ⟨0, 0, 1⟩)) (by simp)
  have htick : (flying (0 : ℝ) 0 0 0 ::
      List.replicate 100 (withFix (flying 0 0 0 0) ⟨0, 0, 1⟩))[1]? =
      some (withFix (flying 0 0 0 0) ⟨0, 0, 1⟩) := by
    simp [List.getElem?_replicate]
  have hsample : r.1.off_[1]? = some ⟨0, 0, -1⟩ := by
    simp only [waitForStable, Option.map_eq_some'] at hr
    obtain ⟨r', hr', rfl⟩ := hr
    obtain ⟨-, -, -, hsamples⟩ := sampleLoop_spec Real.sqrt Real.sin Real.cos
      (fun deg => deg * π / 180) 6378137 (669438 / 100000000) _ 100 _ _ r' hr'
    have h1 := hsamples 1 _ (by norm_num) htick
    have hup := WGS84ToENU_one_up 6378137 (669438 / 100000000)
    simp only [withFix, flying] at h1 hup ⊢
    rw [h1, hup]
    norm_num
  refine ⟨r, hr, hsample, ?_⟩
  intro hclaim
  have h1 := hclaim 1 _ (by norm_num) htick
  rw [hsample] at h1
  simp only [Option.some.injEq, Point.mk.injEq] at h1
  have hz := h1.2.2
  simp [WGS84ToENU, ECEFToENU, WGS84ToECEF, withFix, flying] at hz

open Real in
/-- The theorem `waitForStable_samples` on a vehicle that rests at `(1, 2, 3)` under a
constant fix: the first sample is `(1, 2, 3)`. -/
theorem waitForStable_samples_witness :
    ∃ r, waitForStable Real.sqrt Real.sin Real.cos (fun deg => deg * π / 180) 6378137
        (669438 / 100000000) 0 0 0 (flying 1 2 3 0) (List.replicate 100 (flying 1 2 3 0)) =
        some r ∧
      r.1.off_[0]? = some ⟨1, 2, 3⟩ := by
  obtain ⟨r, hr, -, -, hs⟩ := waitForStable_samples Real.sqrt Real.sin Real.cos
    (fun deg => deg * π / 180) 6378137 (669438 / 100000000) 0 0 0 (flying 1 2 3 0)
    (List.replicate 100 (flying 1 2 3 0)) (by simp)
  exact ⟨r, hr, (hs 0 (flying 1 2 3 0) (by norm_num) rfl).2 rfl⟩

open Real in
/-- C17, the code at the failing input: on a vehicle that rests at `(1, 2, 3)` with yaw
`1` rad, `waitForStable` captures the position and the fix of the last snapshot, but the home
heading is the quaternion of `radianOf 1 = π / 180` rad, which is not that of `1` rad. -/
theorem waitForStable_home_heading :
    ∃ r, waitForStable Real.sqrt Real.sin Real.cos (fun deg => deg * π / 180) 6378137
        (669438 / 100000000) 0 0 0 (flying 1 2 3 1) (List.replicate 100 (flying 1 2 3 1)) =
        some r ∧
      r.1.home_enu_pose_.pose.position = ⟨1, 2, 3⟩ ∧
      r.1.home_gps_position_ = ⟨0, 0, 0⟩ ∧
      r.1.home_enu_pose_.pose.orientation =
        createQuaternionMsgFromYaw Real.sin Real.cos (1 * π / 180) ∧
      r.1.home_enu_pose_.pose.orientation ≠ createQuaternionMsgFromYaw Real.sin Real.cos 1 := by
  obtain ⟨r, hr⟩ := waitForStable_some Real.sqrt Real.sin Real.cos (fun deg => deg * π / 180)
    6378137 (669438 / 100000000) 0 0 0 (flying 1 2 3 1) (List.replicate 100 (flying 1 2 3 1))
    (by simp)
  obtain ⟨hlast, hhome, hfix⟩ := waitForStable_home hr
  have hl : r.2.1 = flying 1 2 3 1 := by
    have : (flying (1 : ℝ) 2 3 1 :: List.replicate 100 (flying 1 2 3 1))[100]? =
        some (flying 1 2 3 1) := by
      simp [List.getElem?_replicate]
    rw [this] at hlast
    exact (Option.some.inj hlast).symm
  rw [hl] at hhome hfix
  have hori : r.1.home_enu_pose_.pose.orientation =
      createQuaternionMsgFromYaw Real.sin Real.cos (1 * π / 180) := by
    rw [hhome]; rfl
  refine ⟨r, hr, by rw [hhome]; rfl, by rw [hfix]; rfl, hori, ?_⟩
  rw [hori]
  intro heq
  simp only [createQuaternionMsgFromYaw, Quaternion.mk.injEq, true_and] at heq
  have hpi := Real.pi_gt_three
  have hpi4 := Real.pi_le_four
  have hlt : Real.sin (1 * π / 180 / 2) < Real.sin (1 / 2) := by
    apply Real.strictMonoOn_sin
    · constructor <;> linarith
    · constructor <;> linarith
    · linarith
  exact absurd heq.1 (ne_of_lt hlt)

open Real in
/-- C18: for every reference fix and all Earth-centred points, the Euclidean norm of
`ECEFToENU` of a point is its distance from the Earth-centred position of the reference, the
distance between the local coordinates of two points is the distance between the points, and
`ECEFToENU` about a fixed reference is injective. -/
theorem ECEFToENU_isometry (sqrt radianOf : ℝ → ℝ) (a e_sq : ℝ) (R : NavSatFix ℝ)
    (p q : Point ℝ) :
    √((ECEFToENU sqrt Real.sin Real.cos radianOf a e_sq p R).x ^ 2 +
        (ECEFToENU sqrt Real.sin Real.cos radianOf a e_sq p R).y ^ 2 +
        (ECEFToENU sqrt Real.sin Real.cos radianOf a e_sq p R).z ^ 2) =
      √((p.x - (WGS84ToECEF sqrt Real.sin Real.cos radianOf a e_sq R).x) ^ 2 +
        (p.y - (WGS84ToECEF sqrt Real.sin Real.cos radianOf a e_sq R).y) ^ 2 +
        (p.z - (WGS84ToECEF sqrt Real.sin Real.cos radianOf a e_sq R).z) ^ 2) ∧
    √(((ECEFToENU sqrt Real.sin Real.cos radianOf a e_sq p R).x -
          (ECEFToENU sqrt Real.sin Real.cos radianOf a e_sq q R).x) ^ 2 +
        ((ECEFToENU sqrt Real.sin Real.cos radianOf a e_sq p R).y -
          (ECEFToENU sqrt Real.sin Real.cos radianOf a e_sq q R).y) ^ 2 +
        ((ECEFToENU sqrt Real.sin Real.cos radianOf a e_sq p R).z -
          (ECEFToENU sqrt Real.sin Real.cos radianOf a e_sq q R).z) ^ 2) =
      √((p.x - q.x) ^ 2 + (p.y - q.y) ^ 2 + (p.z - q.z) ^ 2) ∧
    (ECEFToENU sqrt Real.sin Real.cos radianOf a e_sq p R =
      ECEFToENU sqrt Real.sin Real.cos radianOf a e_sq q R → p = q) := by
  have h1 := Real.sin_sq_add_cos_sq (radianOf R.latitude)
  have h2 := Real.sin_sq_add_cos_sq (radianOf R.longitude)
  have hrot : ∀ x y z : ℝ,
      (-Real.sin (radianOf R.longitude) * x + Real.cos (radianOf R.longitude) * y) ^ 2 +
        (-Real.cos (radianOf R.longitude) * Real.sin (radianOf R.latitude) * x -
          Real.sin (radianOf R.latitude) * Real.sin (radianOf R.longitude) * y +
          Real.cos (radianOf R.latitude) * z) ^ 2 +
        (Real.cos (radianOf R.latitude) * Real.cos (radianOf R.longitude) * x +
          Real.cos (radianOf R.latitude) * Real.sin (radianOf R.longitude) * y +
          Real.sin (radianOf R.latitude) * z) ^ 2 = x ^ 2 + y ^ 2 + z ^ 2 := by
    intro x y z
    linear_combination (x ^ 2 + y ^ 2) * h2 +
      (Real.cos (radianOf R.longitude) ^ 2 * x ^ 2 +
        Real.sin (radianOf R.longitude) ^ 2 * y ^ 2 + z ^ 2 +
        2 * Real.cos (radianOf R.longitude) * Real.sin (radianOf R.longitude) * x * y) * h1
  have hdiff : ((ECEFToENU sqrt Real.sin Real.cos radianOf a e_sq p R).x -
          (ECEFToENU sqrt Real.sin Real.cos radianOf a e_sq q R).x) ^ 2 +
        ((ECEFToENU sqrt Real.sin Real.cos radianOf a e_sq p R).y -
          (ECEFToENU sqrt Real.sin Real.cos radianOf a e_sq q R).y) ^ 2 +
        ((ECEFToENU sqrt Real.sin Real.cos radianOf a e_sq p R).z -
          (ECEFToENU sqrt Real.sin Real.cos radianOf a e_sq q R).z) ^ 2 =
      (p.x - q.x) ^ 2 + (p.y - q.y) ^ 2 + (p.z - q.z) ^ 2 := by
    rw [← hrot (p.x - q.x) (p.y - q.y) (p.z - q.z)]
    simp only [ECEFToENU]
    ring
  refine ⟨?_, ?_, ?_⟩
  · congr 1
    simp only [ECEFToENU, WGS84ToECEF]
    exact hrot _ _ _
  · rw [hdiff]
  · intro heq
    rw [heq] at hdiff
    simp only [sub_self, ne_eq, OfNat.ofNat_ne_zero, not_false_eq_true, zero_pow, add_zero]
      at hdiff
    have hx := sq_nonneg (p.x - q.x)
    have hy := sq_nonneg (p.y - q.y)
    have hz := sq_nonneg (p.z - q.z)
    have ex : p.x - q.x = 0 := by nlinarith
    have ey : p.y - q.y = 0 := by nlinarith
    have ez : p.z - q.z = 0 := by nlinarith
    apply Point.ext <;> linarith

end CalibrationProperties

section IndexProperties

variable {K : Type} [LinearOrderedField K]

omit [LinearOrderedField K] in
/-- A read of a vector at an index inside it succeeds. -/
theorem vectorAt_some (v : List K) (i : Int) (h0 : 0 ≤ i) (h1 : i < v.length) :
    ∃ x, vectorAt v i = some x := by
  have hlt : i.toNat < v.length := by omega
  refine ⟨v[i.toNat], ?_⟩
  simp only [vectorAt, if_pos h0, List.get?_eq_getElem?]
  exact List.getElem?_eq_getElem hlt

/-- An iteration of the Enroute loop at an index inside a well-formed waypoint list: every
read succeeds, and the index stays or advances by one inside the list. -/
theorem enrouteTick_in_range (sqrt : K → K) (atan2 : K → K → K) (sin cos : K → K) (PI : K)
    (p : Params K) (hx : p.num_of_enu_target_ ≤ p.x_target_.length)
    (hy : p.num_of_enu_target_ ≤ p.y_target_.length)
    (hz : p.num_of_enu_target_ ≤ p.z_target_.length)
    (i : Int) (h0 : 0 ≤ i) (h1 : i ≤ p.num_of_enu_target_ - 1)
    (hold : Point K) (cur : Snapshot K) :
    ∃ t, enrouteTick sqrt atan2 sin cos PI p i hold cur = some t ∧ t.i = i ∧
      (t.next_i = i ∨ t.next_i = i + 1) ∧ t.next_i ≤ p.num_of_enu_target_ - 1 := by
  have hread : ∀ j : Int, 0 ≤ j → j ≤ p.num_of_enu_target_ - 1 →
      ∃ x y z, vectorAt p.x_target_ j = some x ∧ vectorAt p.y_target_ j = some y ∧
        vectorAt p.z_target_ j = some z := by
    intro j hj0 hj1
    obtain ⟨x, hxj⟩ := vectorAt_some p.x_target_ j hj0 (by omega)
    obtain ⟨y, hyj⟩ := vectorAt_some p.y_target_ j hj0 (by omega)
    obtain ⟨z, hzj⟩ := vectorAt_some p.z_target_ j hj0 (by omega)
    exact ⟨x, y, z, hxj, hyj, hzj⟩
  have hsp : ∃ sp, enrouteSetpoint p i =
      some (decide (¬ i < p.num_of_enu_target_ - 1), sp) := by
    by_cases hlt : i < p.num_of_enu_target_ - 1
    · obtain ⟨x, y, z, ex, ey, ez⟩ := hread i h0 h1
      refine ⟨targetTransfer x y z, ?_⟩
      simp [enrouteSetpoint, hlt, ex, ey, ez]
    · obtain ⟨x, y, z, ex, ey, ez⟩ := hread (p.num_of_enu_target_ - 1) (by omega) (le_refl _)
      refine ⟨targetTransfer x y z, ?_⟩
      simp [enrouteSetpoint, hlt, ex, ey, ez]
  obtain ⟨sp, hsp⟩ := hsp
  have hnext : ∀ reached : Bool, ∃ j,
      enrouteNextIndex p i reached (decide (¬ i < p.num_of_enu_target_ - 1)) = some j ∧
      (j = i ∨ j = i + 1) ∧ j ≤ p.num_of_enu_target_ - 1 := by
    intro reached
    by_cases hadv : (reached && !decide (¬ i < p.num_of_enu_target_ - 1)) = true
    · have hlt : i < p.num_of_enu_target_ - 1 := by
        by_contra hn
        simp [hn] at hadv
      obtain ⟨x, y, z, ex, ey, ez⟩ := hread (i + 1) (by omega) (by omega)
      refine ⟨i + 1, ?_, Or.inr rfl, by omega⟩
      simp only [enrouteNextIndex, if_pos hadv, ex, ey, ez, Option.some_bind]
    · exact ⟨i, by simp only [enrouteNextIndex, if_neg hadv], Or.inl rfl, h1⟩
  obtain ⟨j, hj, hstep, hle⟩ := hnext
    (checkPositionError sqrt cur.current_odom_ p.target_error_ sp)
  have hex : ∃ t, enrouteTick sqrt atan2 sin cos PI p i hold cur = some t := by
    simp only [enrouteTick, hsp, Option.some_bind, hj]
    exact ⟨_, rfl⟩
  obtain ⟨t, ht⟩ := hex
  obtain ⟨hi, hreached, hn⟩ := enrouteTick_index ht
  obtain ⟨hset, -⟩ := enrouteTick_some ht
  rw [hsp, Option.some.injEq, Prod.mk.injEq] at hset
  rw [hreached, ← hset.2, ← hset.1, hj, Option.some.injEq] at hn
  subst hn
  exact ⟨t, ht, hi, hstep, hle⟩

/-- The index along a run of the Enroute loop started at an index inside a well-formed
waypoint list. -/
theorem enrouteLoop_index (sqrt : K → K) (atan2 : K → K → K) (sin cos : K → K) (PI : K)
    (p : Params K) (hx : p.num_of_enu_target_ ≤ p.x_target_.length)
    (hy : p.num_of_enu_target_ ≤ p.y_target_.length)
    (hz : p.num_of_enu_target_ ≤ p.z_target_.length) (snaps : List (Snapshot K)) :
    ∀ (i : Int) (hold : Point K) (cur : Snapshot K), 0 ≤ i → i ≤ p.num_of_enu_target_ - 1 →
      ∃ L, enrouteLoop sqrt atan2 sin cos PI p i hold cur snaps = some L ∧
        (∀ t, L[0]? = some t → t.i = i) ∧
        (∀ (n : ℕ) (t : EnrouteTick K), L[n]? = some t →
          i ≤ t.i ∧ t.i ≤ p.num_of_enu_target_ - 1 ∧
          (t.next_i = t.i ∨ t.next_i = t.i + 1) ∧ t.next_i ≤ p.num_of_enu_target_ - 1) ∧
        (∀ (n : ℕ) (t t' : EnrouteTick K), L[n]? = some t → L[n + 1]? = some t' →
          t'.i = t.next_i) ∧
        (∀ (m n : ℕ) (tm tn : EnrouteTick K), m ≤ n → L[m]? = some tm → L[n]? = some tn →
          tm.i ≤ tn.i) := by
  induction snaps with
  | nil =>
    intro i hold cur h0 h1
    obtain ⟨t, ht, hi, hstep, hle⟩ :=
      enrouteTick_in_range sqrt atan2 sin cos PI p hx hy hz i h0 h1 hold cur
    by_cases hok : cur.ok = true
    · refine ⟨[t], by simp only [enrouteLoop, if_pos hok, ht, Option.map_some'], ?_, ?_, ?_, ?_⟩
      · intro t' h; simp at h; subst h; exact hi
      · intro n t' h
        cases n with
        | zero => simp at h; subst h; exact ⟨by omega, by omega, by rw [hi]; exact hstep, hle⟩
        | succ n => simp at h
      · intro n t1 t2 _ h2; simp at h2
      · intro m n tm tn _ hm hn
        cases m with
        | zero =>
          cases n with
          | zero => simp at hm hn; subst hm; subst hn; exact le_refl _
          | succ n => simp at hn
        | succ m => simp at hm
    · refine ⟨[], by simp only [enrouteLoop, if_neg hok], ?_, ?_, ?_, ?_⟩
      · intro t' h; simp at h
      · intro n t' h; simp at h
      · intro n t1 t2 h; simp at h
      · intro m n tm tn _ hm; simp at hm
  | cons s rest ih =>
    intro i hold cur h0 h1
    obtain ⟨t, ht, hi, hstep, hle⟩ :=
      enrouteTick_in_range sqrt atan2 sin cos PI p hx hy hz i h0 h1 hold cur
    have hsingle : (∀ t', [t][0]? = some t' → t'.i = i) ∧
        (∀ (n : ℕ) (t' : EnrouteTick K), [t][n]? = some t' →
          i ≤ t'.i ∧ t'.i ≤ p.num_of_enu_target_ - 1 ∧
          (t'.next_i = t'.i ∨ t'.next_i = t'.i + 1) ∧ t'.next_i ≤ p.num_of_enu_target_ - 1) ∧
        (∀ (n : ℕ) (t1 t2 : EnrouteTick K), [t][n]? = some t1 → [t][n + 1]? = some t2 →
          t2.i = t1.next_i) ∧
        (∀ (m n : ℕ) (tm tn : EnrouteTick K), m ≤ n → [t][m]? = some tm → [t][n]? = some tn →
          tm.i ≤ tn.i) := by
      refine ⟨?_, ?_, ?_, ?_⟩
      · intro t' h; simp at h; subst h; exact hi
      · intro n t' h
        cases n with
        | zero => simp at h; subst h; exact ⟨by omega, by omega, by rw [hi]; exact hstep, hle⟩
        | succ n => simp at h
      · intro n t1 t2 _ h2; simp at h2
      · intro m n tm tn _ hm hn
        cases m with
        | zero =>
          cases n with
          | zero => simp at hm hn; subst hm; subst hn; exact le_refl _
          | succ n => simp at hn
        | succ m => simp at hm
    by_cases hok : cur.ok = true
    · by_cases hfin : (t.target_reached && t.final_position_reached_) = true
      · exact ⟨[t], by simp only [enrouteLoop, if_pos hok, ht, if_pos hfin], hsingle⟩
      · have hn0 : 0 ≤ t.next_i := by rcases hstep with h | h <;> omega
        obtain ⟨L', hL', hhead, hinv, hchain, hmono⟩ := ih t.next_i t.current_hold s hn0 hle
        refine ⟨t :: L', by simp only [enrouteLoop, if_pos hok, ht, if_neg hfin, hL',
          Option.map_some'], ?_, ?_, ?_, ?_⟩
        · intro t' h; simp at h; subst h; exact hi
        · intro n t' h
          cases n with
          | zero =>
            simp at h; subst h
            exact ⟨by omega, by omega, by rw [hi]; exact hstep, hle⟩
          | succ n =>
            simp only [List.getElem?_cons_succ] at h
            obtain ⟨a1, a2, a3, a4⟩ := hinv n t' h
            exact ⟨by rcases hstep with h | h <;> omega, a2, a3, a4⟩
        · intro n t1 t2 h1' h2'
          cases n with
          | zero =>
            simp only [List.getElem?_cons_zero, Option.some.injEq] at h1'
            subst h1'
            simp only [List.getElem?_cons_succ] at h2'
            exact hhead t2 h2'
          | succ n =>
            simp only [List.getElem?_cons_succ] at h1' h2'
            exact hchain n t1 t2 h1' h2'
        · intro m n tm tn hmn hm hn
          cases m with
          | zero =>
            simp only [List.getElem?_cons_zero, Option.some.injEq] at hm
            subst hm
            cases n with
            | zero =>
              simp only [List.getElem?_cons_zero, Option.some.injEq] at hn
              subst hn; exact le_refl _
            | succ n =>
              simp only [List.getElem?_cons_succ] at hn
              have := (hinv n tn hn).1
              rcases hstep with h | h <;> omega
          | succ m =>
            cases n with
            | zero => omega
            | succ n =>
              simp only [List.getElem?_cons_succ] at hm hn
              exact hmono m n tm tn (by omega) hm hn
    · refine ⟨[], by simp only [enrouteLoop, if_neg hok], ?_, ?_, ?_, ?_⟩
      · intro t' h; simp at h
      · intro n t' h; simp at h
      · intro n t1 t2 h; simp at h
      · intro m n tm tn _ hm; simp at hm

/-- C11, as amended: for a mission with at least one waypoint whose coordinate vectors each
hold at least that many entries, and for every sequence of snapshots, the Enroute loop makes
every waypoint read inside the vectors; the index starts at `0`, each iteration keeps it or
adds one, it never decreases, and it stays between `0` and `count - 1`. -/
theorem enroute_index_in_range (sqrt : K → K) (atan2 : K → K → K) (sin cos : K → K) (PI : K)
    (p : Params K) (cur : Snapshot K) (snaps : List (Snapshot K))
    (hcount : 1 ≤ p.num_of_enu_target_)
    (hx : p.num_of_enu_target_ ≤ p.x_target_.length)
    (hy : p.num_of_enu_target_ ≤ p.y_target_.length)
    (hz : p.num_of_enu_target_ ≤ p.z_target_.length) :
    ∃ L, enuYawFlightAndLandingSetpoint sqrt atan2 sin cos PI p cur snaps = some L ∧
      (∀ t, L[0]? = some t → t.i = 0) ∧
      (∀ (n : ℕ) (t : EnrouteTick K), L[n]? = some t →
        0 ≤ t.i ∧ t.i ≤ p.num_of_enu_target_ - 1 ∧
        (t.next_i = t.i ∨ t.next_i = t.i + 1) ∧ t.next_i ≤ p.num_of_enu_target_ - 1) ∧
      (∀ (n : ℕ) (t t' : EnrouteTick K), L[n]? = some t → L[n + 1]? = some t' →
        t'.i = t.next_i) ∧
      (∀ (m n : ℕ) (tm tn : EnrouteTick K), m ≤ n → L[m]? = some tm → L[n]? = some tn →
        tm.i ≤ tn.i) := by
  obtain ⟨x, ex⟩ := vectorAt_some p.x_target_ 0 (le_refl _) (by omega)
  obtain ⟨y, ey⟩ := vectorAt_some p.y_target_ 0 (le_refl _) (by omega)
  obtain ⟨z, ez⟩ := vectorAt_some p.z_target_ 0 (le_refl _) (by omega)
  obtain ⟨L, hL, hrest⟩ := enrouteLoop_index sqrt atan2 sin cos PI p hx hy hz snaps 0
    ⟨cur.current_odom_.x, cur.current_odom_.y, cur.current_odom_.z⟩ cur (le_refl _) (by omega)
  exact ⟨L, by simp only [enuYawFlightAndLandingSetpoint, ex, ey, ez, Option.some_bind, hL],
    hrest⟩

open Real in
/-- The theorem `enroute_index_in_range` on the two-waypoint mission entered at `(0, 0, 5)`
and then observed at `(10, 0, 5)` and `(10, 10, 5)`. -/
theorem enroute_index_in_range_witness :
    ∃ L, enuYawFlightAndLandingSetpoint Real.sqrt (fun y x => Complex.arg ⟨x, y⟩) Real.sin
        Real.cos π (twoWaypoints ℝ) (flying 0 0 5 0) [flying 10 0 5 0, flying 10 10 5 0] =
        some L ∧
      (∀ t, L[0]? = some t → t.i = 0) ∧
      (∀ (n : ℕ) (t : EnrouteTick ℝ), L[n]? = some t → 0 ≤ t.i ∧ t.i ≤ 1) := by
  obtain ⟨L, hL, hhead, hinv, -, -⟩ := enroute_index_in_range Real.sqrt
    (fun y x => Complex.arg ⟨x, y⟩) Real.sin Real.cos π (twoWaypoints ℝ) (flying 0 0 5 0)
    [flying 10 0 5 0, flying 10 10 5 0] (by simp [twoWaypoints]) (by simp [twoWaypoints])
    (by simp [twoWaypoints]) (by simp [twoWaypoints])
  refine ⟨L, hL, hhead, ?_⟩
  intro n t h
  obtain ⟨a1, a2, -, -⟩ := hinv n t h
  exact ⟨a1, by simpa [twoWaypoints] using a2⟩

end IndexProperties

section PhaseProperties

set_option maxHeartbeats 1600000 in
open Real in
/-- C12, the code at the failing input: with cruise speed `vel_desired_ = 1` and landing
speed `land_vel_ = 1/2`, `landing` and `landingYaw` entered at `(0, 0, 3)` above the target
`(0, 0, 0)` publish `(0, 0, 2)` and, from `(0, 0, 1/2)`, `(0, 0, -1/2)`: each published
position is one cruise-speed step from the odometry position, not a landing-speed step. -/
theorem landing_publishes_cruise_speed_step :
    landing Real.sqrt (oneWaypoint ℝ).vel_desired_ (oneWaypoint ℝ).land_error_
        (targetTransfer 0 0 0) false (flying 0 0 3 0) [flying 0 0 (1 / 2) 0] [true] =
      some [Event.publish (targetTransfer 0 0 2), Event.publish (targetTransfer 0 0 (-(1 / 2))),
        Event.setMode "AUTO.LAND" true, Event.shutdown] ∧
    landingYaw Real.sqrt (oneWaypoint ℝ).vel_desired_ (oneWaypoint ℝ).land_error_
        (targetTransfer 0 0 0) false (flying 0 0 3 0) [flying 0 0 (1 / 2) 0] [true] =
      some [Event.publish (targetTransfer 0 0 2), Event.publish (targetTransfer 0 0 (-(1 / 2))),
        Event.setMode "AUTO.LAND" true, Event.shutdown] ∧
    (3 : ℝ) - 2 = (oneWaypoint ℝ).vel_desired_ ∧ (3 : ℝ) - 2 ≠ (oneWaypoint ℝ).land_vel_ := by
  have hs4 : √4 = 2 := by
    rw [show (4 : ℝ) = 2 * 2 by norm_num]
    exact Real.sqrt_mul_self (by norm_num)
  have hs9 : √9 = 3 := by
    rw [show (9 : ℝ) = 3 * 3 by norm_num]
    exact Real.sqrt_mul_self (by norm_num)
  have hc3 : checkPositionError Real.sqrt (⟨0, 0, 3⟩ : Point ℝ) 1 (targetTransfer 0 0 0) =
      false := by
    norm_num [checkPositionError, Vector3d.norm, targetTransfer, hs9]
  have hc : checkPositionError Real.sqrt (⟨0, 0, 1 / 2⟩ : Point ℝ) 1
      (targetTransfer 0 0 0) = true := by
    norm_num [checkPositionError, Vector3d.norm, targetTransfer, hs4]
  have hv3 : velComponentsCalc Real.sqrt 1 (targetTransfer 0 0 3) (targetTransfer 0 0 0) =
      ⟨0, 0, -1⟩ := by
    norm_num [velComponentsCalc, sqr, targetTransfer, hs9]
  have hv : velComponentsCalc Real.sqrt 1 (targetTransfer 0 0 (1 / 2)) (targetTransfer 0 0 0) =
      ⟨0, 0, -1⟩ := by
    norm_num [velComponentsCalc, sqr, targetTransfer, hs4]
  refine ⟨?_, ?_, by norm_num [oneWaypoint], by norm_num [oneWaypoint]⟩
  · rw [landing]
    norm_num [flying, oneWaypoint, hv3, hc3]
    rw [landing]
    norm_num [hv, hc]
    rw [landing]
    simp
  · rw [landingYaw]
    norm_num [flying, oneWaypoint, hv3, hc3]
    rw [landingYaw]
    norm_num [hv, hc]
    rw [landingYaw]
    simp [targetTransfer, targetTransferQuat]

end PhaseProperties

section MissionProperties

variable {K : Type} [LinearOrderedField K]

omit [LinearOrderedField K] in
/-- The setpoint stream on a node that keeps running: `i` publications of the first target,
one snapshot consumed by each. -/
theorem setOffboardStreamLoop_replicate (first_target : PoseStamped K) (s : Snapshot K)
    (hok : s.ok = true) :
    ∀ (i m : ℕ), i ≤ m →
      setOffboardStreamLoop first_target i s (List.replicate m s) =
        ⟨List.replicate i (Event.publish first_target), [],
          some (s, List.replicate (m - i) s)⟩ := by
  intro i
  induction i with
  | zero => intro m _; simp [setOffboardStreamLoop]
  | succ i ih =>
    intro m hm
    cases m with
    | zero => omega
    | succ m =>
      simp only [List.replicate_succ, setOffboardStreamLoop, if_pos hok]
      rw [ih m (by omega)]
      simp [Run.cons, List.replicate_succ]

/-- The method `waitForStable` on a node whose snapshot does not change: it ends in that
snapshot and leaves what follows the first `100` snapshots. -/
theorem waitForStable_replicate (sqrt sin cos radianOf : K → K)
    (a e_sq x_offset_ y_offset_ z_offset_ : K) (s : Snapshot K) (m : ℕ) (hm : 100 ≤ m) :
    ∃ stable, waitForStable sqrt sin cos radianOf a e_sq x_offset_ y_offset_ z_offset_ s
      (List.replicate m s) = some (stable, s, List.replicate (m - 100) s) := by
  obtain ⟨r, hr⟩ := waitForStable_some sqrt sin cos radianOf a e_sq x_offset_ y_offset_
    z_offset_ s (List.replicate m s) (by simpa using hm)
  have h := hr
  simp only [waitForStable, Option.map_eq_some'] at h
  obtain ⟨r', hr', hrr⟩ := h
  obtain ⟨-, hlast, hrest, -⟩ := sampleLoop_spec sqrt sin cos radianOf a e_sq _ 100 s
    (List.replicate m s) r' hr'
  have hlast' : r'.2.1 = s := by
    have : (s :: List.replicate m s)[100]? = some s := by
      simp [List.getElem?_replicate]
      omega
    rw [this] at hlast
    exact (Option.some.inj hlast).symm
  have hrest' : r'.2.2 = List.replicate (m - 100) s := by
    rw [hrest]; simp
  refine ⟨r.1, ?_⟩
  rw [hr, ← hrr]
  simp only [hlast', hrest']

open Real in
/-- C13, the code at the failing input: with waypoint count `0` and empty coordinate vectors,
on a vehicle armed and in OFFBOARD mode on the ground, the mission is not rejected: the
calibration completes, the setpoint stream publishes `(0, 0, 5)` fifty times, the takeoff
publishes its two setpoints, and `enuYawFlightAndLandingSetpoint` then reads waypoint `0`
outside the empty vectors. -/
theorem mission_without_waypoints_not_rejected :
    ∃ m, m = inputENUYawAndLandingSetpoint Real.sqrt (fun y x => Complex.arg ⟨x, y⟩) Real.sin
        Real.cos (fun deg => deg * π / 180) π 6378137 (669438 / 100000000) (noWaypoint ℝ) 0 0 0 0
        (standby true "OFFBOARD") (List.replicate 150 (standby true "OFFBOARD")) []
        [flying 0 0 (24 / 5) 0] [] [] ∧
      m.stable.isSome = true ∧
      m.events = List.replicate 50 (Event.publish (targetTransfer 0 0 5)) ++
        [Event.publish (targetTransfer 0 0 1), Event.publish (targetTransfer 0 0 (29 / 5))] ∧
      m.outcome = MissionEnd.undefinedRead := by
  obtain ⟨stable, hstable⟩ := waitForStable_replicate Real.sqrt Real.sin Real.cos
    (fun deg => deg * π / 180) 6378137 (669438 / 100000000) 0 0 0
    (standby true "OFFBOARD" : Snapshot ℝ) 150 (by norm_num)
  have hstream := setOffboardStreamLoop_replicate (targetTransfer (0 : ℝ) 0 5)
    (standby true "OFFBOARD" : Snapshot ℝ) rfl 50 50 (le_refl _)
  have harm : waitForArmAndOffboard false false (standby true "OFFBOARD" : Snapshot ℝ) [] [] [] =
      some ([], standby true "OFFBOARD") := by
    simp [waitForArmAndOffboard, externalArmLoop, armLoopCond, standby]
  have hs25 : √25 = 5 := by
    rw [show (25 : ℝ) = 5 * 5 by norm_num]
    exact Real.sqrt_mul_self (by norm_num)
  have hclimb : takeOff Real.sqrt 1 (1 / 2) (targetTransfer (0 : ℝ) 0 5) 0
      (standby true "OFFBOARD") [flying 0 0 (24 / 5) 0] =
      ⟨[Event.publish (targetTransfer 0 0 1), Event.publish (targetTransfer 0 0 (29 / 5))],
        [⟨1, targetTransfer 0 0 0, targetTransfer 0 0 5⟩,
          ⟨1, targetTransfer 0 0 (24 / 5), targetTransfer 0 0 5⟩],
        some (flying 0 0 (24 / 5) 0, [])⟩ := by
    rw [takeOff]
    norm_num [standby, checkPositionError, Vector3d.norm, velComponentsCalc, sqr, targetTransfer,
      hs25, Run.cons, Run.call]
    rw [takeOff]
    norm_num [flying, checkPositionError, Vector3d.norm, velComponentsCalc, sqr, targetTransfer,
      hs25, Run.cons, Run.call, hovering]
  have henroute : ∀ (cur : Snapshot ℝ) (snaps : List (Snapshot ℝ)),
      enuYawFlightAndLandingSetpoint Real.sqrt (fun y x => Complex.arg ⟨x, y⟩) Real.sin
        Real.cos π (noWaypoint ℝ) cur snaps = none := by
    intro cur snaps
    simp [enuYawFlightAndLandingSetpoint, vectorAt, noWaypoint]
  have hstream' : setOffboardStream
      (targetTransfer (standby true "OFFBOARD" : Snapshot ℝ).current_odom_.x
        (standby true "OFFBOARD" : Snapshot ℝ).current_odom_.y (noWaypoint ℝ).z_takeoff_)
      (standby true "OFFBOARD") (List.replicate (150 - 100) (standby true "OFFBOARD")) =
      ⟨List.replicate 50 (Event.publish (targetTransfer 0 0 5)), [],
        some (standby true "OFFBOARD", [])⟩ := hstream
  have harm' : waitForArmAndOffboard (noWaypoint ℝ).simulation_mode_enable_
      (noWaypoint ℝ).odom_error_ (standby true "OFFBOARD" : Snapshot ℝ) [] [] [] =
      some ([], standby true "OFFBOARD") := harm
  have hclimb' : takeOff Real.sqrt (noWaypoint ℝ).vel_desired_ (noWaypoint ℝ).target_error_
      (targetTransfer (standby true "OFFBOARD" : Snapshot ℝ).current_odom_.x
        (standby true "OFFBOARD" : Snapshot ℝ).current_odom_.y (noWaypoint ℝ).z_takeoff_) 0
      (standby true "OFFBOARD") [flying 0 0 (24 / 5) 0] =
      ⟨[Event.publish (targetTransfer 0 0 1), Event.publish (targetTransfer 0 0 (29 / 5))],
        [⟨1, targetTransfer 0 0 0, targetTransfer 0 0 5⟩,
          ⟨1, targetTransfer 0 0 (24 / 5), targetTransfer 0 0 5⟩],
        some (flying 0 0 (24 / 5) 0, [])⟩ := hclimb
  have hm : inputENUYawAndLandingSetpoint Real.sqrt (fun y x => Complex.arg ⟨x, y⟩) Real.sin
      Real.cos (fun deg => deg * π / 180) π 6378137 (669438 / 100000000) (noWaypoint ℝ) 0 0 0 0
      (standby true "OFFBOARD") (List.replicate 150 (standby true "OFFBOARD")) []
      [flying 0 0 (24 / 5) 0] [] [] =
      ⟨some stable, List.replicate 50 (Event.publish (targetTransfer 0 0 5)) ++ [] ++
        [Event.publish (targetTransfer 0 0 1), Event.publish (targetTransfer 0 0 (29 / 5))],
        MissionEnd.undefinedRead⟩ := by
    simp only [inputENUYawAndLandingSetpoint, hstable, hstream', harm', hclimb', henroute]
  refine ⟨_, rfl, ?_, ?_, ?_⟩
  · rw [hm]; rfl
  · rw [hm]; simp
  · rw [hm]

end MissionProperties

section LandingHead

variable {K : Type} [LinearOrderedField K]

end LandingHead

section VelocityCallProperties

variable {K : Type} [LinearOrderedField K]

end VelocityCallProperties

section ShortVectors

open Real in
/-- C11, as the claim states it, fails: with waypoint count `3` and two stored waypoints, a
vehicle that reaches the first and then the second waypoint makes the loop read waypoint `2`
outside the vectors. -/
theorem indexStaysInList_fails :
    1 ≤ (shortVectors ℝ).num_of_enu_target_ ∧
    enuYawFlightAndLandingSetpoint Real.sqrt (fun y x => Complex.arg ⟨x, y⟩) Real.sin
      Real.cos π (shortVectors ℝ) (flying 10 0 (24 / 5) 0) [flying 10 10 (24 / 5) 0] = none ∧
    ¬ IndexStaysInList Real.sqrt (fun y x => Complex.arg ⟨x, y⟩) Real.sin Real.cos π
      (shortVectors ℝ) (flying 10 0 (24 / 5) 0) [flying 10 10 (24 / 5) 0] := by
  have hs25 : √25 = 5 := by
    rw [show (25 : ℝ) = 5 * 5 by norm_num]
    exact Real.sqrt_mul_self (by norm_num)
  have hv : vectorAt (shortVectors ℝ).x_target_ 0 = some 10 ∧
      vectorAt (shortVectors ℝ).y_target_ 0 = some 0 ∧
      vectorAt (shortVectors ℝ).z_target_ 0 = some 5 := by
    simp [shortVectors, vectorAt]
  have hsp0 : enrouteSetpoint (shortVectors ℝ) 0 = some (false, targetTransfer 10 0 5) := by
    simp [enrouteSetpoint, shortVectors, vectorAt]
  have hsp1 : enrouteSetpoint (shortVectors ℝ) 1 = some (false, targetTransfer 10 10 5) := by
    simp [enrouteSetpoint, shortVectors, vectorAt]
  have hc0 : checkPositionError Real.sqrt (flying (10 : ℝ) 0 (24 / 5) 0).current_odom_
      (shortVectors ℝ).target_error_ (targetTransfer 10 0 5) = true := by
    norm_num [checkPositionError, Vector3d.norm, targetTransfer, flying, shortVectors, hs25]
  have hc1 : checkPositionError Real.sqrt (flying (10 : ℝ) 10 (24 / 5) 0).current_odom_
      (shortVectors ℝ).target_error_ (targetTransfer 10 10 5) = true := by
    norm_num [checkPositionError, Vector3d.norm, targetTransfer, flying, shortVectors, hs25]
  have hn0 : enrouteNextIndex (shortVectors ℝ) 0 true false = some 1 := by
    simp [enrouteNextIndex, shortVectors, vectorAt]
  have hn1 : enrouteNextIndex (shortVectors ℝ) 1 true false = none := by
    simp [enrouteNextIndex, shortVectors, vectorAt]
  have hex : ∃ t0, enrouteTick Real.sqrt (fun y x => Complex.arg ⟨x, y⟩) Real.sin Real.cos π
      (shortVectors ℝ) 0 ⟨10, 0, 24 / 5⟩ (flying 10 0 (24 / 5) 0) = some t0 := by
    simp only [enrouteTick, hsp0, Option.some_bind, hc0, hn0]
    exact ⟨_, rfl⟩
  obtain ⟨t0, h0⟩ := hex
  obtain ⟨hset, -⟩ := enrouteTick_some h0
  obtain ⟨-, hreached, hnext⟩ := enrouteTick_index h0
  rw [hsp0, Option.some.injEq, Prod.mk.injEq] at hset
  have hfin : t0.final_position_reached_ = false := hset.1.symm
  have hi : t0.next_i = 1 := by
    rw [hreached, ← hset.2, hc0, hfin, hn0, Option.some.injEq] at hnext
    exact hnext.symm
  have h1 : enrouteTick Real.sqrt (fun y x => Complex.arg ⟨x, y⟩) Real.sin Real.cos π
      (shortVectors ℝ) 1 t0.current_hold (flying 10 10 (24 / 5) 0) = none := by
    simp only [enrouteTick, hsp1, Option.some_bind, hc1, hn1, Option.none_bind]
  have hh : (⟨(flying (10 : ℝ) 0 (24 / 5) 0).current_odom_.x,
      (flying (10 : ℝ) 0 (24 / 5) 0).current_odom_.y,
      (flying (10 : ℝ) 0 (24 / 5) 0).current_odom_.z⟩ : Point ℝ) = ⟨10, 0, 24 / 5⟩ := rfl
  have hok : ∀ x y z w : ℝ, (flying x y z w).ok = true := fun _ _ _ _ => rfl
  have hrun : enuYawFlightAndLandingSetpoint Real.sqrt (fun y x => Complex.arg ⟨x, y⟩)
      Real.sin Real.cos π (shortVectors ℝ) (flying 10 0 (24 / 5) 0)
      [flying 10 10 (24 / 5) 0] = none := by
    simp only [enuYawFlightAndLandingSetpoint, hv.1, hv.2.1, hv.2.2, Option.some_bind, hh,
      enrouteLoop, hok, if_true, h0, hfin, Bool.and_false, Bool.false_eq_true, if_false, hi, h1,
      Option.map_none']
  refine ⟨by norm_num [shortVectors], hrun, ?_⟩
  rintro ⟨L, hL, -⟩
  rw [hrun] at hL
  exact absurd hL (by simp)

end ShortVectors

end Offboard
